import Mathlib

/-!
Verification of the EV-market-analysis orchestration core
(`state_manager.py`, `graph_builder.py`, `agents/supervisor_agent.py`).

The shared `AgentState` is a Python dict mapping string keys to Python
values.  We embed it shallowly: `Value` is the universe of Python values
stored in the state, and a state is an insertion-ordered association list
with unique keys (`PyDict`), with `pget`/`pset` mirroring `d[k]`/`d.get(k)`
and `d[k] = v`.
-/

namespace EVMarket

/-- A langchain-style message object: the Python class name (`type(msg).__name__`),
the `content` attribute and the optional `name` attribute.  `BaseMessage`
objects carry no `role` attribute, which is what `_serialize_message` probes
with `hasattr`. -/
structure Msg where
  mtype : String
  content : String
  mname : Option String
deriving DecidableEq

/-- Python values stored in the shared state dict. -/
inductive Value where
  | none
  | bool (b : Bool)
  | int (n : Int)
  | str (s : String)
  | list (xs : List Value)
  | dict (d : List (String × Value))
  | msg (m : Msg)

mutual

/-- Structural equality test on Python values (`deriving` does not handle the
nested occurrences, so it is spelled out). -/
def Value.beq : Value → Value → Bool
  | Value.none, Value.none => true
  | Value.bool a, Value.bool b => a == b
  | Value.int a, Value.int b => a == b
  | Value.str a, Value.str b => a == b
  | Value.list a, Value.list b => Value.beqList a b
  | Value.dict a, Value.dict b => Value.beqDict a b
  | Value.msg a, Value.msg b => a == b
  | _, _ => false

def Value.beqList : List Value → List Value → Bool
  | [], [] => true
  | a :: la, b :: lb => Value.beq a b && Value.beqList la lb
  | _, _ => false

def Value.beqDict : List (String × Value) → List (String × Value) → Bool
  | [], [] => true
  | (ka, va) :: la, (kb, vb) :: lb => ka == kb && Value.beq va vb && Value.beqDict la lb
  | _, _ => false

end

mutual

theorem Value.beq_refl : ∀ a : Value, Value.beq a a = true
  | Value.none => rfl
  | Value.bool a => by simp [Value.beq]
  | Value.int a => by simp [Value.beq]
  | Value.str a => by simp [Value.beq]
  | Value.list a => by simp [Value.beq, Value.beqList_refl a]
  | Value.dict a => by simp [Value.beq, Value.beqDict_refl a]
  | Value.msg a => by simp [Value.beq]

theorem Value.beqList_refl : ∀ l : List Value, Value.beqList l l = true
  | [] => rfl
  | a :: la => by simp [Value.beqList, Value.beq_refl a, Value.beqList_refl la]

theorem Value.beqDict_refl : ∀ l : List (String × Value), Value.beqDict l l = true
  | [] => rfl
  | (k, v) :: l => by simp [Value.beqDict, Value.beq_refl v, Value.beqDict_refl l]

end

mutual

theorem Value.eq_of_beq : ∀ a b : Value, Value.beq a b = true → a = b
  | Value.none, Value.none, _ => rfl
  | Value.bool a, Value.bool b, h => by simpa [Value.beq] using h
  | Value.int a, Value.int b, h => by simpa [Value.beq] using h
  | Value.str a, Value.str b, h => by simpa [Value.beq] using h
  | Value.list a, Value.list b, h => by
      simp [Value.beq] at h
      exact congrArg Value.list (Value.eqList_of_beq a b h)
  | Value.dict a, Value.dict b, h => by
      simp [Value.beq] at h
      exact congrArg Value.dict (Value.eqDict_of_beq a b h)
  | Value.msg a, Value.msg b, h => by simpa [Value.beq] using h
  | Value.none, Value.bool _, h => by simp [Value.beq] at h
  | Value.none, Value.int _, h => by simp [Value.beq] at h
  | Value.none, Value.str _, h => by simp [Value.beq] at h
  | Value.none, Value.list _, h => by simp [Value.beq] at h
  | Value.none, Value.dict _, h => by simp [Value.beq] at h
  | Value.none, Value.msg _, h => by simp [Value.beq] at h
  | Value.bool _, Value.none, h => by simp [Value.beq] at h
  | Value.bool _, Value.int _, h => by simp [Value.beq] at h
  | Value.bool _, Value.str _, h => by simp [Value.beq] at h
  | Value.bool _, Value.list _, h => by simp [Value.beq] at h
  | Value.bool _, Value.dict _, h => by simp [Value.beq] at h
  | Value.bool _, Value.msg _, h => by simp [Value.beq] at h
  | Value.int _, Value.none, h => by simp [Value.beq] at h
  | Value.int _, Value.bool _, h => by simp [Value.beq] at h
  | Value.int _, Value.str _, h => by simp [Value.beq] at h
  | Value.int _, Value.list _, h => by simp [Value.beq] at h
  | Value.int _, Value.dict _, h => by simp [Value.beq] at h
  | Value.int _, Value.msg _, h => by simp [Value.beq] at h
  | Value.str _, Value.none, h => by simp [Value.beq] at h
  | Value.str _, Value.bool _, h => by simp [Value.beq] at h
  | Value.str _, Value.int _, h => by simp [Value.beq] at h
  | Value.str _, Value.list _, h => by simp [Value.beq] at h
  | Value.str _, Value.dict _, h => by simp [Value.beq] at h
  | Value.str _, Value.msg _, h => by simp [Value.beq] at h
  | Value.list _, Value.none, h => by simp [Value.beq] at h
  | Value.list _, Value.bool _, h => by simp [Value.beq] at h
  | Value.list _, Value.int _, h => by simp [Value.beq] at h
  | Value.list _, Value.str _, h => by simp [Value.beq] at h
  | Value.list _, Value.dict _, h => by simp [Value.beq] at h
  | Value.list _, Value.msg _, h => by simp [Value.beq] at h
  | Value.dict _, Value.none, h => by simp [Value.beq] at h
  | Value.dict _, Value.bool _, h => by simp [Value.beq] at h
  | Value.dict _, Value.int _, h => by simp [Value.beq] at h
  | Value.dict _, Value.str _, h => by simp [Value.beq] at h
  | Value.dict _, Value.list _, h => by simp [Value.beq] at h
  | Value.dict _, Value.msg _, h => by simp [Value.beq] at h
  | Value.msg _, Value.none, h => by simp [Value.beq] at h
  | Value.msg _, Value.bool _, h => by simp [Value.beq] at h
  | Value.msg _, Value.int _, h => by simp [Value.beq] at h
  | Value.msg _, Value.str _, h => by simp [Value.beq] at h
  | Value.msg _, Value.list _, h => by simp [Value.beq] at h
  | Value.msg _, Value.dict _, h => by simp [Value.beq] at h

theorem Value.eqList_of_beq : ∀ a b : List Value, Value.beqList a b = true → a = b
  | [], [], _ => rfl
  | [], _ :: _, h => by simp [Value.beqList] at h
  | _ :: _, [], h => by simp [Value.beqList] at h
  | a :: la, b :: lb, h => by
      simp [Value.beqList] at h
      rw [Value.eq_of_beq a b h.1, Value.eqList_of_beq la lb h.2]

theorem Value.eqDict_of_beq :
    ∀ a b : List (String × Value), Value.beqDict a b = true → a = b
  | [], [], _ => rfl
  | [], _ :: _, h => by simp [Value.beqDict] at h
  | _ :: _, [], h => by simp [Value.beqDict] at h
  | (ka, va) :: la, (kb, vb) :: lb, h => by
      simp [Value.beqDict] at h
      rw [h.1.1, Value.eq_of_beq va vb h.1.2, Value.eqDict_of_beq la lb h.2]

end

instance : DecidableEq Value := fun a b =>
  if h : Value.beq a b = true then isTrue (Value.eq_of_beq a b h)
  else isFalse (fun he => h (he ▸ Value.beq_refl a))

/-- A Python dict (insertion ordered, keys unique). -/
abbrev PyDict := List (String × Value)

/-- `d.get(k)`: `Option.none` models the key being absent. -/
def pget : PyDict → String → Option Value
  | [], _ => Option.none
  | p :: d, k => if p.1 == k then some p.2 else pget d k

/-- `d.get(k, dflt)`. -/
def pgetD (d : PyDict) (k : String) (dflt : Value) : Value :=
  (pget d k).getD dflt

/-- `k in d`. -/
def hasKey : PyDict → String → Bool
  | [], _ => false
  | p :: d, k => p.1 == k || hasKey d k

/-- `d[k] = v`: replace the binding in place (dict keys are unique and keep
their insertion position), else append a new binding at the end. -/
def pset : PyDict → String → Value → PyDict
  | [], k, v => [(k, v)]
  | p :: d, k, v => if p.1 == k then (k, v) :: d else p :: pset d k v

/-- Python truthiness (`bool(v)`). -/
def truthy : Value → Bool
  | Value.none => false
  | Value.bool b => b
  | Value.int n => n != 0
  | Value.str s => s != ""
  | Value.list xs => !xs.isEmpty
  | Value.dict d => !d.isEmpty
  | Value.msg _ => true

/-- `state.get(k) is None`: true when the key is absent (`.get` yields `None`)
or bound to `None`. -/
def getIsNone (d : PyDict) (k : String) : Bool :=
  match pget d k with
  | Option.none => true
  | some Value.none => true
  | some _ => false

/-- Payload of a Python list value.  On any other value the source would raise
a `TypeError`; we totalize with `[]` (no theorem relies on that branch). -/
def asList : Value → List Value
  | Value.list xs => xs
  | _ => []

/-- Payload of a Python dict value, totalized like `asList`. -/
def asDict : Value → PyDict
  | Value.dict d => d
  | _ => []

/-- Payload of a Python int (`bool` is an int subtype), totalized with 0. -/
def asInt : Value → Int
  | Value.int n => n
  | Value.bool b => if b then 1 else 0
  | _ => 0

/-- Payload of a Python str, totalized with `""`. -/
def asStr : Value → String
  | Value.str s => s
  | _ => ""

/-! ### `StateManager.check_dependencies` (state_manager.py:318-350) -/

/-- The static dependency table of `check_dependencies`. -/
def dependencies : List (String × List String) :=
  [("consumer_analysis", ["market_trends", "government_policies"]),
   ("tech_analysis", ["company_tech_data"]),
   ("chart_generation", ["market_data", "consumer_patterns",
                         "company_analysis", "tech_trends", "stock_analysis"]),
   ("report_generation", ["charts_generated"])]

/-- `dependencies.get(agent_name, [])`. -/
def depsOf (agent_name : String) : List String :=
  match dependencies.find? (fun p => p.1 == agent_name) with
  | some p => p.2
  | Option.none => []

/-- `dep.endswith('_generated')`, spelled on the character lists (the core
`String.endsWith` does not reduce in the kernel). -/
def endsWithGenerated (dep : String) : Bool :=
  List.isSuffixOf "_generated".data dep.data

/-- One iteration of the dependency loop: a `_generated` suffix marks a flag
dependency, checked for truthiness with default `False`; anything else is a
data dependency, missing when `state.get(dep) is None`. -/
def depMissing (state : PyDict) (dep : String) : Bool :=
  if endsWithGenerated dep then !truthy (pgetD state dep (Value.bool false))
  else getIsNone state dep

/-- `StateManager.check_dependencies`: collect the missing dependencies in
declaration order, return `(len(missing) == 0, missing)`. -/
def check_dependencies (state : PyDict) (agent_name : String) : Bool × List String :=
  let missing_deps :=
    (depsOf agent_name).foldl
      (fun acc dep => if depMissing state dep then acc ++ [dep] else acc) []
  (missing_deps.length == 0, missing_deps)

/-! ### `StateManager.merge_states` (state_manager.py:352-398) -/

/-- `list(set(xs))`.  CPython's set iteration order is implementation-defined;
we fix the canonical order that keeps the first occurrence of each element.
Theorems about these fields are stated at the level of sets of elements. -/
def pydedup (xs : List Value) : List Value :=
  xs.foldl (fun acc x => if x ∈ acc then acc else acc ++ [x]) []

/-- `d1.update(d2)` on Python dicts: incoming bindings overwrite. -/
def dictUpdate (d1 d2 : PyDict) : PyDict :=
  d2.foldl (fun acc kv => pset acc kv.1 kv.2) d1

/-- Python `a or b`: the first operand if truthy, else the second. -/
def pyOr (a b : Value) : Value :=
  if truthy a then a else b

/-- The `data_fields` list of `merge_states`. -/
def data_fields : List String :=
  ["market_trends", "government_policies", "market_data",
   "consumer_patterns", "company_analysis", "company_tech_data",
   "tech_trends", "stock_analysis", "charts", "dashboard",
   "final_report"]

/-- The `list_fields` list shared by both merge functions. -/
def list_fields : List String :=
  ["completed_agents", "errors", "warnings", "logs"]

/-- The `flag_fields` list of `merge_states`. -/
def flag_fields : List String :=
  ["charts_generated", "report_generated", "workflow_complete"]

/-- One iteration of the `merge_states` data-field loop:
`if merged.get(field) is None and state2.get(field) is not None:
merged[field] = state2[field]`. -/
def merge_data_step (state2 m : PyDict) (f : String) : PyDict :=
  if getIsNone m f && !getIsNone state2 f then pset m f (pgetD state2 f Value.none)
  else m

/-- One iteration of the `merge_states` list-field loop:
`if field in state2: merged[field] = list(set(merged.get(field, []) + state2[field]))`. -/
def merge_list_step (state2 m : PyDict) (f : String) : PyDict :=
  if hasKey state2 f then
    pset m f (Value.list (pydedup
      (asList (pgetD m f (Value.list [])) ++ asList (pgetD state2 f (Value.list [])))))
  else m

/-- One iteration of the `merge_states` flag loop:
`merged[field] = merged.get(field, False) or state2.get(field, False)`. -/
def merge_flag_step (state2 m : PyDict) (f : String) : PyDict :=
  pset m f (pyOr (pgetD m f (Value.bool false)) (pgetD state2 f (Value.bool false)))

/-- `StateManager.merge_states state1 state2`: start from a copy of `state1`;
fill each data field from `state2` only when `state1`'s is None; union the
list fields when present in `state2`; union `agent_errors` with `state2`
overwriting; OR the flags; take the max iteration.  (`merged['agent_errors']`
indexing is totalized through `pgetD` with an empty-dict default.) -/
def merge_states (state1 state2 : PyDict) : PyDict :=
  let merged := state1
  let merged := data_fields.foldl (merge_data_step state2) merged
  let merged := list_fields.foldl (merge_list_step state2) merged
  let merged :=
    if hasKey state2 "agent_errors" then
      pset merged "agent_errors" (Value.dict (dictUpdate
        (asDict (pgetD merged "agent_errors" (Value.dict [])))
        (asDict (pgetD state2 "agent_errors" (Value.dict [])))))
    else merged
  let merged := flag_fields.foldl (merge_flag_step state2) merged
  pset merged "current_iteration"
    (Value.int (max (asInt (pgetD merged "current_iteration" (Value.int 0)))
                    (asInt (pgetD state2 "current_iteration" (Value.int 0)))))

/-! ### `EVMarketAnalysisGraph._merge_states` (graph_builder.py:265-309) -/

/-- The `data_fields` list of `_merge_states` (no charts/dashboard/final_report). -/
def g_data_fields : List String :=
  ["market_trends", "government_policies", "market_data",
   "consumer_patterns",
   "company_analysis", "company_tech_data",
   "tech_trends",
   "stock_analysis"]

/-- One iteration of the `_merge_states` data-field loop:
`if new_state.get(field) is not None: base_state[field] = new_state[field]`. -/
def g_data_step (new_state m : PyDict) (f : String) : PyDict :=
  if !getIsNone new_state f then pset m f (pgetD new_state f Value.none)
  else m

/-- One iteration of the `_merge_states` list-field loop:
`if new_state.get(field): base_state[field] = list(set(base...) | set(new...))`. -/
def g_list_step (new_state m : PyDict) (f : String) : PyDict :=
  if truthy (pgetD new_state f Value.none) then
    pset m f (Value.list (pydedup
      (asList (pgetD m f (Value.list [])) ++ asList (pgetD new_state f (Value.list [])))))
  else m

/-- The body of `_merge_states` up to (not including) the final `messages`
extension: the `analysis_results` handling, the data-field loop and the
list-field loop. -/
def g_merge_pre (base_state new_state : PyDict) : PyDict :=
  let base :=
    if hasKey base_state "analysis_results" then base_state
    else pset base_state "analysis_results" (Value.dict [])
  let base :=
    if hasKey new_state "analysis_results" && truthy (pgetD new_state "analysis_results" Value.none) then
      pset base "analysis_results" (Value.dict (dictUpdate
        (asDict (pgetD base "analysis_results" (Value.dict [])))
        (asDict (pgetD new_state "analysis_results" (Value.dict [])))))
    else base
  let base := g_data_fields.foldl (g_data_step new_state) base
  list_fields.foldl (g_list_step new_state) base

/-- `EVMarketAnalysisGraph._merge_states base_state new_state`: ensure
`analysis_results` exists and fold the incoming one in; copy each data field
from `new_state` whenever it is not None (incoming wins); union the list
fields when the incoming value is truthy; extend `messages`. -/
def g_merge_states (base_state new_state : PyDict) : PyDict :=
  let base := g_merge_pre base_state new_state
  if truthy (pgetD new_state "messages" Value.none) then
    pset base "messages" (Value.list
      (asList (pgetD base "messages" (Value.list [])) ++ asList (pgetD new_state "messages" (Value.list []))))
  else base

/-! ### `StateManager.update_state` (state_manager.py:160-197) -/

/-- One iteration of the `update_state` loop over `updates.items()`. -/
def update_step (new_state : PyDict) (k : String) (v : Value) : PyDict :=
  if hasKey new_state k then
    if k == "messages" then
      match v with
      | Value.list vs =>
          pset new_state k (Value.list (asList (pgetD new_state k (Value.list [])) ++ vs))
      | _ => pset new_state k v
    else if k == "errors" || k == "warnings" || k == "logs" then
      match v with
      | Value.list vs =>
          pset new_state k (Value.list (asList (pgetD new_state k (Value.list [])) ++ vs))
      | _ => pset new_state k v
    else if k == "next_agents" || k == "pending_agents" || k == "completed_agents" then
      match v with
      | Value.list _ => pset new_state k v
      | _ => new_state
    else pset new_state k v
  else
    let ns := pset new_state k v
    pset ns "warnings" (Value.list
      (asList (pgetD ns "warnings" (Value.list [])) ++ [Value.str ("New field added to state: " ++ k)]))

/-- `StateManager.update_state`: fold the update dict into a copy of the
state.  Append-only fields extend, agent schedule lists replace (when given a
list), other known keys overwrite, unknown keys are added with a warning. -/
def update_state (state : PyDict) (updates : List (String × Value)) : PyDict :=
  updates.foldl (fun ns kv => update_step ns kv.1 kv.2) state

/-! ### Chain execution (graph_builder.py:107-209)

An analysis task is `process` of one agent: it takes the branch state and
either returns a state or raises (modelled with `Except`, the raised
exception rendered by `str(e)` as the error string). -/

/-- An agent's async `process`, at the granularity the chains observe. -/
abbrev Task := PyDict → Except String PyDict

/-- `state['errors'].append(msg)`. -/
def record_error (s : PyDict) (msg : String) : PyDict :=
  pset s "errors" (Value.list (asList (pgetD s "errors" (Value.list [])) ++ [Value.str msg]))

/-- `state['completed_agents'].append(a)`. -/
def add_completed (s : PyDict) (a : String) : PyDict :=
  pset s "completed_agents"
    (Value.list (asList (pgetD s "completed_agents" (Value.list [])) ++ [Value.str a]))

/-- `EVMarketAnalysisGraph._execute_chain_1`: Market Research →
Consumer Analysis, the whole body in one `try`; an exception from either
task is appended to `errors` and the chain returns at once. -/
def execute_chain_1 (market_research consumer_analysis : Task) (state : PyDict) : PyDict :=
  match market_research state with
  | Except.error e => record_error state ("Chain 1 실행 중 오류: " ++ e)
  | Except.ok s1 =>
    let s1 := add_completed s1 "market_research"
    match consumer_analysis s1 with
    | Except.error e => record_error s1 ("Chain 1 실행 중 오류: " ++ e)
    | Except.ok s2 => add_completed s2 "consumer_analysis"

/-- `_run_tech_analysis`: run the agent, mark completion; on an exception
append `tech_analysis: e` to the branch state's errors and re-raise (the
exception propagates to `asyncio.gather`; the mutated branch state is carried
along because the shallow copies alias the same `errors` list — see the heap
model below for the aliasing itself). -/
def run_tech_analysis (tech : Task) (state : PyDict) : Except (String × PyDict) PyDict :=
  match tech state with
  | Except.ok st => Except.ok (add_completed st "tech_analysis")
  | Except.error e => Except.error (e, record_error state ("tech_analysis: " ++ e))

/-- `_run_stock_analysis`, symmetric to `run_tech_analysis`. -/
def run_stock_analysis (stock : Task) (state : PyDict) : Except (String × PyDict) PyDict :=
  match stock state with
  | Except.ok st => Except.ok (add_completed st "stock_analysis")
  | Except.error e => Except.error (e, record_error state ("stock_analysis: " ++ e))

/-- `EVMarketAnalysisGraph._execute_chain_2`: Company Analysis, then Tech and
Stock in parallel on `dict(state)` copies, gathered with
`return_exceptions=True` and folded back with `_merge_states`; an exception
from Company Analysis is appended to `errors` and the chain returns at once. -/
def execute_chain_2 (company tech stock : Task) (state : PyDict) : PyDict :=
  match company state with
  | Except.error e => record_error state ("Chain 2 실행 중 오류: " ++ e)
  | Except.ok s1 =>
    let s1 := add_completed s1 "company_analysis"
    let state_tech := s1
    let state_stock := s1
    let rtech := run_tech_analysis tech state_tech
    let rstock := run_stock_analysis stock state_stock
    let s2 := match rtech with
      | Except.error (e, _) => record_error s1 ("tech_analysis 실행 실패: " ++ e)
      | Except.ok st => g_merge_states s1 st
    match rstock with
    | Except.error (e, _) => record_error s2 ("stock_analysis 실행 실패: " ++ e)
    | Except.ok st => g_merge_states s2 st

/-! ### `SupervisorAgent` (agents/supervisor_agent.py)

The agent's own mutable attributes (`current_stage`, `agent_status`,
`iteration_count`, `max_iterations`) form the supervisor state threaded
through `process`.  `datetime.now()` is abstracted into a timestamp
parameter `ts`; `save_output` only writes files and is omitted. -/

inductive WorkflowStage where
  | initialization | data_collection | analysis | synthesis | reporting | completed
deriving DecidableEq

structure Supervisor where
  current_stage : WorkflowStage
  agent_status : List (String × String)
  iteration_count : Nat
  max_iterations : Nat
deriving DecidableEq

/-- `SupervisorAgent.__init__` with a given `max_iterations` (config default 10). -/
def Supervisor.init (max_iterations : Nat) : Supervisor :=
  { current_stage := WorkflowStage.initialization
    agent_status := []
    iteration_count := 0
    max_iterations := max_iterations }

/-- `self.agent_status[a] = st`. -/
def statusSet : List (String × String) → String → String → List (String × String)
  | [], a, st => [(a, st)]
  | p :: d, a, st => if p.1 == a then (a, st) :: d else p :: statusSet d a st

/-- The three agents seeded by `_initialize_workflow`. -/
def required_agents : List String :=
  ["market_research", "company_analysis", "stock_analysis"]

/-- `_initialize_workflow`. -/
def initialize_workflow (sup : Supervisor) (state : PyDict) (ts : String) :
    Supervisor × PyDict :=
  let state := pset state "required_agents" (Value.list (required_agents.map Value.str))
  let state := pset state "workflow_metadata" (Value.dict
    [("started_at", Value.str ts),
     ("initiated_by", Value.str "supervisor"),
     ("workflow_id", Value.str ("wf_" ++ ts))])
  let status := required_agents.foldl (fun d a => statusSet d a "pending") sup.agent_status
  let state := pset state "next_agents"
    (Value.list [Value.str "market_research", Value.str "company_analysis",
                 Value.str "stock_analysis"])
  ({ sup with agent_status := status, current_stage := WorkflowStage.data_collection },
   state)

/-- `_coordinate_data_collection`. -/
def coordinate_data_collection (sup : Supervisor) (state : PyDict) :
    Supervisor × PyDict :=
  let pending := (sup.agent_status.filter (fun p => p.2 == "pending")).map (fun p => p.1)
  if pending.isEmpty then
    let status := statusSet (statusSet sup.agent_status "consumer_analysis" "pending")
      "tech_analysis" "pending"
    ({ sup with current_stage := WorkflowStage.analysis, agent_status := status },
     pset state "next_agents" (Value.list [Value.str "consumer_analysis", Value.str "tech_analysis"]))
  else
    (sup, pset state "pending_agents" (Value.list (pending.map Value.str)))

/-- `_coordinate_analysis`: `all(...)` of the five analysis slots is Python
truthiness of each `state.get(...)`. -/
def coordinate_analysis (sup : Supervisor) (state : PyDict) : Supervisor × PyDict :=
  let analysis_complete :=
    truthy (pgetD state "market_trends" Value.none) &&
    truthy (pgetD state "consumer_patterns" Value.none) &&
    truthy (pgetD state "company_analysis" Value.none) &&
    truthy (pgetD state "tech_trends" Value.none) &&
    truthy (pgetD state "stock_analysis" Value.none)
  if analysis_complete then
    ({ sup with current_stage := WorkflowStage.synthesis,
                agent_status := statusSet sup.agent_status "chart_generation" "pending" },
     pset state "next_agents" (Value.list [Value.str "chart_generation"]))
  else (sup, state)

/-- `_coordinate_synthesis`. -/
def coordinate_synthesis (sup : Supervisor) (state : PyDict) : Supervisor × PyDict :=
  if truthy (pgetD state "charts_generated" Value.none) then
    ({ sup with current_stage := WorkflowStage.reporting,
                agent_status := statusSet sup.agent_status "report_generation" "pending" },
     pset state "next_agents" (Value.list [Value.str "report_generation"]))
  else (sup, state)

/-- `_coordinate_reporting` (the summary artifact is file output, omitted). -/
def coordinate_reporting (sup : Supervisor) (state : PyDict) (ts : String) :
    Supervisor × PyDict :=
  if truthy (pgetD state "final_report" Value.none) then
    ({ sup with current_stage := WorkflowStage.completed },
     pset (pset state "workflow_complete" (Value.bool true)) "completed_at" (Value.str ts))
  else (sup, state)

/-- `SupervisorAgent.process`: bump `iteration_count`; past the ceiling, set
`state['error'] = "Maximum iterations exceeded"` and return without touching
the stage; otherwise dispatch on the current stage. -/
def Supervisor.process (sup : Supervisor) (state : PyDict) (ts : String) :
    Supervisor × PyDict :=
  let sup := { sup with iteration_count := sup.iteration_count + 1 }
  if sup.iteration_count > sup.max_iterations then
    (sup, pset state "error" (Value.str "Maximum iterations exceeded"))
  else
    match sup.current_stage with
    | WorkflowStage.initialization => initialize_workflow sup state ts
    | WorkflowStage.data_collection => coordinate_data_collection sup state
    | WorkflowStage.analysis => coordinate_analysis sup state
    | WorkflowStage.synthesis => coordinate_synthesis sup state
    | WorkflowStage.reporting => coordinate_reporting sup state ts
    | WorkflowStage.completed => (sup, state)

/-- The stage that follows each stage in the intended forward progression
(spec §4.6); `completed` is terminal. -/
def stage_next : WorkflowStage → WorkflowStage
  | WorkflowStage.initialization => WorkflowStage.data_collection
  | WorkflowStage.data_collection => WorkflowStage.analysis
  | WorkflowStage.analysis => WorkflowStage.synthesis
  | WorkflowStage.synthesis => WorkflowStage.reporting
  | WorkflowStage.reporting => WorkflowStage.completed
  | WorkflowStage.completed => WorkflowStage.completed

/-- Iterate `process` n times from a supervisor/state pair with a fixed
timestamp (the orchestrator loop calling the supervisor repeatedly). -/
def supervisor_iterate (sup : Supervisor) (state : PyDict) (ts : String) :
    Nat → Supervisor × PyDict
  | 0 => (sup, state)
  | n + 1 =>
    let p := supervisor_iterate sup state ts n
    Supervisor.process p.1 p.2 ts

/-! ### Checkpointing (state_manager.py:199-248, 429-493)

`save_checkpoint` JSON-dumps `_make_serializable(state)`; `load_checkpoint`
JSON-loads the file and runs `_deserialize_state`, then appends a restore log
line.  `json.dump`/`json.load` round-trip the serializable values exactly, so
the file is modelled by the serialized dict itself.  Index accesses that
would raise (`msg_dict['type']` on a dict without the key, `state['logs']`
when absent) are totalized through defaults; no theorem uses those branches. -/

/-- `type(v).__name__` for the values we model. -/
def py_type_name : Value → String
  | Value.none => "NoneType"
  | Value.bool _ => "bool"
  | Value.int _ => "int"
  | Value.str _ => "str"
  | Value.list _ => "list"
  | Value.dict _ => "dict"
  | Value.msg m => m.mtype

/-- `str(v)`, approximated: only the scalar cases render faithfully; the
container cases never feed a theorem (only `_serialize_message` applied to a
non-message uses this, a branch outside every claim). -/
def py_str : Value → String
  | Value.none => "None"
  | Value.bool b => if b then "True" else "False"
  | Value.int n => toString n
  | Value.str s => s
  | Value.list _ => "<list>"
  | Value.dict _ => "<dict>"
  | Value.msg m => m.content

/-- `_serialize_message`: dicts pass through; objects are probed for
`content`/`role`/`name` attributes (`BaseMessage` has `content` and `name`,
never `role`). -/
def serialize_message : Value → Value
  | Value.dict d => Value.dict d
  | Value.msg m => Value.dict
      [("type", Value.str m.mtype),
       ("content", Value.str m.content),
       ("role", Value.str "unknown"),
       ("name", match m.mname with | some s => Value.str s | Option.none => Value.none)]
  | v => Value.dict
      [("type", Value.str (py_type_name v)),
       ("content", Value.str (py_str v)),
       ("role", Value.str "unknown"),
       ("name", Value.none)]

mutual

/-- `_make_serializable`, the loop over `state.items()`. -/
def make_serializable : PyDict → PyDict
  | [] => []
  | (k, v) :: rest =>
    (k, if k == "messages" then serialize_messages_slot v else serialize_value v)
      :: make_serializable rest

/-- The `key == 'messages' and isinstance(value, list)` arm; a non-list falls
through to the generic arms. -/
def serialize_messages_slot : Value → Value
  | Value.list xs => Value.list (serialize_message_list xs)
  | v => serialize_value v

def serialize_message_list : List Value → List Value
  | [] => []
  | x :: xs => serialize_message x :: serialize_message_list xs

/-- The generic arms: recurse into dicts, map over lists recursing only into
dict items, leave everything else as is. -/
def serialize_value : Value → Value
  | Value.dict d => Value.dict (make_serializable d)
  | Value.list xs => Value.list (serialize_items xs)
  | v => v

def serialize_items : List Value → List Value
  | [] => []
  | Value.dict d :: xs => Value.dict (make_serializable d) :: serialize_items xs
  | x :: xs => x :: serialize_items xs

end

/-- `save_checkpoint`, modelled as the contents of the written file.  (The
source afterwards appends a `Checkpoint saved` line to the in-memory state's
logs; the file does not contain it.) -/
def save_checkpoint (state : PyDict) : PyDict :=
  make_serializable state

/-- `_deserialize_state`'s message reconstruction: dispatch on the serialized
`type` name; unknown names fall back to `HumanMessage`.  The constructors are
called with `content` only, so `name` comes back as `None`. -/
def deserialize_message (v : Value) : Value :=
  let mtype := asStr (pgetD (asDict v) "type" (Value.str ""))
  let content := asStr (pgetD (asDict v) "content" (Value.str ""))
  if mtype == "HumanMessage" then Value.msg ⟨"HumanMessage", content, Option.none⟩
  else if mtype == "AIMessage" then Value.msg ⟨"AIMessage", content, Option.none⟩
  else if mtype == "SystemMessage" then Value.msg ⟨"SystemMessage", content, Option.none⟩
  else Value.msg ⟨"HumanMessage", content, Option.none⟩

/-- `_deserialize_state`: rebuild message objects under the `messages` key. -/
def deserialize_state (serialized : PyDict) : PyDict :=
  if hasKey serialized "messages" then
    match pgetD serialized "messages" (Value.list []) with
    | Value.list msgs => pset serialized "messages" (Value.list (msgs.map deserialize_message))
    | _ => serialized
  else serialized

/-- `load_checkpoint path` applied to the saved file contents: deserialize,
then append the restore line to `logs`. -/
def load_checkpoint (path : String) (file_contents : PyDict) : PyDict :=
  let state := deserialize_state file_contents
  pset state "logs" (Value.list
    (asList (pgetD state "logs" (Value.list []))
      ++ [Value.str ("State restored from checkpoint: " ++ path)]))

mutual

/-- Values on which `_make_serializable` is the identity: no message objects
anywhere, and no nested dict binding a `messages` key (such a binding would
have its items pushed through `_serialize_message`). -/
def plain : Value → Bool
  | Value.msg _ => false
  | Value.list xs => plain_items xs
  | Value.dict d => plain_dict d
  | _ => true

def plain_items : List Value → Bool
  | [] => true
  | x :: xs => plain x && plain_items xs

def plain_dict : List (String × Value) → Bool
  | [] => true
  | (k, v) :: d => !(k == "messages") && plain v && plain_dict d

end

/-! ### Branch cloning as objects on a heap (graph_builder.py:149-172, 211-263)

`_execute_parallel_chains` and `_execute_chain_2` hand each branch
`dict(state)`: a **shallow** copy.  To talk about what a branch's mutations
do to its siblings we need object identity, so here a state is a record of
references to list objects living on a heap, covering the fields the chains
mutate in place (`completed_agents`, `errors`, `logs`, `messages`). -/

/-- The heap: list-object id → contents (payloads kept abstract in `α`). -/
abbrev Heap (α : Type) := Nat → List α

/-- A state's top-level bindings for the in-place-mutated list fields. -/
structure RefState where
  completed_agents : Nat
  errors : Nat
  logs : Nat
  messages : Nat
deriving DecidableEq

/-- Read a list object. -/
def hget (h : Heap α) (r : Nat) : List α := h r

/-- `lst.append(x)` on the object `r`. -/
def happend (h : Heap α) (r : Nat) (x : α) : Heap α :=
  fun q => if q = r then h r ++ [x] else h q

/-- `dict(state)`: the new dict holds the same key→object bindings; the list
objects themselves are shared with the original. -/
def dict_copy (s : RefState) : RefState := s

/-- A deep clone, for contrast: fresh list objects `base..base+3` seeded with
the snapshot's contents.  (Not what the code does.) -/
def deep_copy (h : Heap α) (s : RefState) (base : Nat) : Heap α × RefState :=
  (fun q =>
    if q = base then h s.completed_agents
    else if q = base + 1 then h s.errors
    else if q = base + 2 then h s.logs
    else if q = base + 3 then h s.messages
    else h q,
   ⟨base, base + 1, base + 2, base + 3⟩)

/-! ## Lemmas about the dict model -/

theorem pget_pset_self (d : PyDict) (k : String) (v : Value) :
    pget (pset d k v) k = some v := by
  induction d with
  | nil => simp [pset, pget]
  | cons p d ih =>
    by_cases h : p.1 = k
    · simp [pset, pget, h]
    · simp [pset, pget, h, ih]

theorem pget_pset_ne (d : PyDict) (k q : String) (v : Value) (h : q ≠ k) :
    pget (pset d k v) q = pget d q := by
  have hk : ¬(k = q) := fun he => h he.symm
  induction d with
  | nil => simp [pset, pget, hk]
  | cons p d ih =>
    by_cases hp : p.1 = k
    · simp [pset, pget, hp, hk]
    · simp [pset, pget, hp, ih]

theorem hasKey_eq_isSome (d : PyDict) (k : String) :
    hasKey d k = (pget d k).isSome := by
  induction d with
  | nil => simp [hasKey, pget]
  | cons p d ih =>
    by_cases hp : p.1 = k <;> simp [hasKey, pget, hp, ih]

theorem getIsNone_congr {d1 d2 : PyDict} {k : String}
    (h : pget d1 k = pget d2 k) : getIsNone d1 k = getIsNone d2 k := by
  unfold getIsNone
  rw [h]

theorem pgetD_congr {d1 d2 : PyDict} {k : String} (dflt : Value)
    (h : pget d1 k = pget d2 k) : pgetD d1 k dflt = pgetD d2 k dflt := by
  unfold pgetD
  rw [h]

theorem pget_of_not_isNone {d : PyDict} {k : String}
    (h : getIsNone d k = false) (dflt : Value) : pget d k = some (pgetD d k dflt) := by
  unfold getIsNone at h
  unfold pgetD
  cases hp : pget d k with
  | none => rw [hp] at h; simp at h
  | some v => rfl

theorem pget_foldl_preserve (step : PyDict → String → PyDict) (k : String) :
    ∀ (fields : List String), (∀ m f, f ∈ fields → pget (step m f) k = pget m k) →
      ∀ m, pget (List.foldl step m fields) k = pget m k
  | [], _, _ => rfl
  | f :: rest, h, m => by
    rw [List.foldl_cons,
      pget_foldl_preserve step k rest (fun m g hg => h m g (List.mem_cons_of_mem f hg)) (step m f),
      h m f (List.mem_cons_self f rest)]

/-- Folding a per-field step over a duplicate-free field list touches the
field `k` exactly once, so reading `k` afterwards is reading it after the one
step for `k` applied to the incoming accumulator. -/
theorem pget_foldl_first (step : PyDict → String → PyDict) (k : String)
    (hne : ∀ m f, f ≠ k → pget (step m f) k = pget m k)
    (hcongr : ∀ m1 m2, pget m1 k = pget m2 k → pget (step m1 k) k = pget (step m2 k) k) :
    ∀ (fields : List String), k ∈ fields → fields.Nodup →
      ∀ m, pget (List.foldl step m fields) k = pget (step m k) k
  | [], hmem, _, _ => absurd hmem (List.not_mem_nil k)
  | f :: rest, hmem, hnodup, m => by
    rw [List.foldl_cons]
    by_cases hf : f = k
    · subst hf
      have hkrest : f ∉ rest := (List.nodup_cons.mp hnodup).1
      exact pget_foldl_preserve step f rest
        (fun m g hg => hne m g (fun he => hkrest (he ▸ hg))) (step m f)
    · have hmem' : k ∈ rest := by
        rcases List.mem_cons.mp hmem with h | h
        · exact absurd h.symm hf
        · exact h
      rw [pget_foldl_first step k hne hcongr rest hmem' (List.nodup_cons.mp hnodup).2 (step m f)]
      exact hcongr _ _ (hne m f hf)

theorem mem_pydedup_aux (x : Value) :
    ∀ (l : List Value) (acc : List Value),
      (x ∈ List.foldl (fun acc y => if y ∈ acc then acc else acc ++ [y]) acc l
        ↔ x ∈ acc ∨ x ∈ l)
  | [], acc => by simp
  | y :: l, acc => by
    rw [List.foldl_cons, mem_pydedup_aux x l]
    by_cases hy : y ∈ acc
    · simp only [if_pos hy, List.mem_cons]
      constructor
      · rintro (h | h)
        · exact Or.inl h
        · exact Or.inr (Or.inr h)
      · rintro (h | rfl | h)
        · exact Or.inl h
        · exact Or.inl hy
        · exact Or.inr h
    · simp only [if_neg hy, List.mem_append, List.mem_cons, List.not_mem_nil, or_false]
      constructor
      · rintro ((h | h) | h)
        · exact Or.inl h
        · exact Or.inr (Or.inl h)
        · exact Or.inr (Or.inr h)
      · rintro (h | h | h)
        · exact Or.inl (Or.inl h)
        · exact Or.inl (Or.inr h)
        · exact Or.inr h

theorem mem_pydedup {x : Value} {l : List Value} : x ∈ pydedup l ↔ x ∈ l := by
  unfold pydedup
  rw [mem_pydedup_aux x l []]
  simp

/-! ## Lemmas about the merge steps -/

theorem merge_data_step_pget_ne (s2 m : PyDict) (f q : String) (h : f ≠ q) :
    pget (merge_data_step s2 m f) q = pget m q := by
  unfold merge_data_step
  split
  · exact pget_pset_ne m f q _ (fun he => h he.symm)
  · rfl

theorem merge_data_step_pget_self (s2 m : PyDict) (f : String) :
    pget (merge_data_step s2 m f) f =
      if getIsNone m f && !getIsNone s2 f then some (pgetD s2 f Value.none)
      else pget m f := by
  unfold merge_data_step
  by_cases hc : (getIsNone m f && !getIsNone s2 f) = true
  · simp [hc, pget_pset_self]
  · simp [hc]

theorem merge_data_step_congr (s2 : PyDict) (f : String) (m1 m2 : PyDict)
    (h : pget m1 f = pget m2 f) :
    pget (merge_data_step s2 m1 f) f = pget (merge_data_step s2 m2 f) f := by
  rw [merge_data_step_pget_self, merge_data_step_pget_self, getIsNone_congr h, h]

theorem merge_list_step_pget_ne (s2 m : PyDict) (f q : String) (h : f ≠ q) :
    pget (merge_list_step s2 m f) q = pget m q := by
  unfold merge_list_step
  split
  · exact pget_pset_ne m f q _ (fun he => h he.symm)
  · rfl

theorem merge_list_step_pget_self (s2 m : PyDict) (f : String) :
    pget (merge_list_step s2 m f) f =
      if hasKey s2 f then
        some (Value.list (pydedup
          (asList (pgetD m f (Value.list [])) ++ asList (pgetD s2 f (Value.list [])))))
      else pget m f := by
  unfold merge_list_step
  by_cases hc : hasKey s2 f = true
  · simp [hc, pget_pset_self]
  · simp [hc]

theorem merge_list_step_congr (s2 : PyDict) (f : String) (m1 m2 : PyDict)
    (h : pget m1 f = pget m2 f) :
    pget (merge_list_step s2 m1 f) f = pget (merge_list_step s2 m2 f) f := by
  rw [merge_list_step_pget_self, merge_list_step_pget_self, pgetD_congr _ h, h]

theorem merge_flag_step_pget_ne (s2 m : PyDict) (f q : String) (h : f ≠ q) :
    pget (merge_flag_step s2 m f) q = pget m q := by
  unfold merge_flag_step
  exact pget_pset_ne m f q _ (fun he => h he.symm)

theorem g_data_step_pget_ne (s2 m : PyDict) (f q : String) (h : f ≠ q) :
    pget (g_data_step s2 m f) q = pget m q := by
  unfold g_data_step
  split
  · exact pget_pset_ne m f q _ (fun he => h he.symm)
  · rfl

theorem g_data_step_pget_self (s2 m : PyDict) (f : String) :
    pget (g_data_step s2 m f) f =
      if getIsNone s2 f then pget m f else some (pgetD s2 f Value.none) := by
  unfold g_data_step
  by_cases hc : getIsNone s2 f <;> simp [hc, pget_pset_self]

theorem g_data_step_congr (s2 : PyDict) (f : String) (m1 m2 : PyDict)
    (h : pget m1 f = pget m2 f) :
    pget (g_data_step s2 m1 f) f = pget (g_data_step s2 m2 f) f := by
  rw [g_data_step_pget_self, g_data_step_pget_self, h]

theorem g_list_step_pget_ne (s2 m : PyDict) (f q : String) (h : f ≠ q) :
    pget (g_list_step s2 m f) q = pget m q := by
  unfold g_list_step
  split
  · exact pget_pset_ne m f q _ (fun he => h he.symm)
  · rfl

theorem g_list_step_pget_self (s2 m : PyDict) (f : String) :
    pget (g_list_step s2 m f) f =
      if truthy (pgetD s2 f Value.none) then
        some (Value.list (pydedup
          (asList (pgetD m f (Value.list [])) ++ asList (pgetD s2 f (Value.list [])))))
      else pget m f := by
  unfold g_list_step
  by_cases hc : truthy (pgetD s2 f Value.none) <;> simp [hc, pget_pset_self]

theorem g_list_step_congr (s2 : PyDict) (f : String) (m1 m2 : PyDict)
    (h : pget m1 f = pget m2 f) :
    pget (g_list_step s2 m1 f) f = pget (g_list_step s2 m2 f) f := by
  rw [g_list_step_pget_self, g_list_step_pget_self, pgetD_congr _ h, h]

theorem pgetD_pset_ne (d : PyDict) (k q : String) (v dflt : Value) (h : q ≠ k) :
    pgetD (pset d k v) q dflt = pgetD d q dflt := by
  unfold pgetD
  rw [pget_pset_ne d k q v h]

theorem pgetD_foldl_preserve (step : PyDict → String → PyDict) (k : String)
    (fields : List String) (h : ∀ m f, f ∈ fields → pget (step m f) k = pget m k)
    (m : PyDict) (dflt : Value) :
    pgetD (List.foldl step m fields) k dflt = pgetD m k dflt := by
  unfold pgetD
  rw [pget_foldl_preserve step k fields h m]

/-! ## Field-level characterizations of the two merge functions -/

theorem pget_merge_states_data (s1 s2 : PyDict) (f : String) (hfd : f ∈ data_fields) :
    pget (merge_states s1 s2) f =
      if getIsNone s1 f && !getIsNone s2 f then pget s2 f else pget s1 f := by
  have hside : f ∉ list_fields ∧ f ≠ "agent_errors" ∧ f ∉ flag_fields ∧ f ≠ "current_iteration" := by
    simp only [data_fields, List.mem_cons, List.not_mem_nil, or_false] at hfd
    rcases hfd with rfl | rfl | rfl | rfl | rfl | rfl | rfl | rfl | rfl | rfl | rfl <;>
      exact ⟨by decide, by decide, by decide, by decide⟩
  obtain ⟨hfl, hfa, hff, hfc⟩ := hside
  simp only [merge_states]
  rw [pget_pset_ne _ _ _ _ hfc]
  rw [pget_foldl_preserve (merge_flag_step s2) f flag_fields
    (fun m g hg => merge_flag_step_pget_ne s2 m g f (fun he => hff (he ▸ hg)))]
  rw [apply_ite (fun d => pget d f), pget_pset_ne _ _ _ _ hfa, ite_self]
  rw [pget_foldl_preserve (merge_list_step s2) f list_fields
    (fun m g hg => merge_list_step_pget_ne s2 m g f (fun he => hfl (he ▸ hg)))]
  rw [pget_foldl_first (merge_data_step s2) f
    (fun m g hgf => merge_data_step_pget_ne s2 m g f hgf)
    (merge_data_step_congr s2 f) data_fields hfd (by decide) s1]
  rw [merge_data_step_pget_self]
  by_cases hc : (getIsNone s1 f && !getIsNone s2 f) = true
  · rw [if_pos hc, if_pos hc]
    have h2 : getIsNone s2 f = false := by
      have hc2 := hc
      simp only [Bool.and_eq_true, Bool.not_eq_true'] at hc2
      exact hc2.2
    rw [pget_of_not_isNone h2 Value.none]
  · rw [if_neg hc, if_neg hc]

theorem pget_merge_states_list (s1 s2 : PyDict) (f : String) (hfl : f ∈ list_fields) :
    pget (merge_states s1 s2) f =
      if hasKey s2 f then
        some (Value.list (pydedup
          (asList (pgetD s1 f (Value.list [])) ++ asList (pgetD s2 f (Value.list [])))))
      else pget s1 f := by
  have hside : f ∉ data_fields ∧ f ≠ "agent_errors" ∧ f ∉ flag_fields ∧ f ≠ "current_iteration" := by
    simp only [list_fields, List.mem_cons, List.not_mem_nil, or_false] at hfl
    rcases hfl with rfl | rfl | rfl | rfl <;>
      exact ⟨by decide, by decide, by decide, by decide⟩
  obtain ⟨hfd, hfa, hff, hfc⟩ := hside
  simp only [merge_states]
  rw [pget_pset_ne _ _ _ _ hfc]
  rw [pget_foldl_preserve (merge_flag_step s2) f flag_fields
    (fun m g hg => merge_flag_step_pget_ne s2 m g f (fun he => hff (he ▸ hg)))]
  rw [apply_ite (fun d => pget d f), pget_pset_ne _ _ _ _ hfa, ite_self]
  rw [pget_foldl_first (merge_list_step s2) f
    (fun m g hgf => merge_list_step_pget_ne s2 m g f hgf)
    (merge_list_step_congr s2 f) list_fields hfl (by decide)]
  rw [merge_list_step_pget_self]
  rw [pgetD_foldl_preserve (merge_data_step s2) f data_fields
    (fun m g hg => merge_data_step_pget_ne s2 m g f (fun he => hfd (he ▸ hg)))]
  rw [pget_foldl_preserve (merge_data_step s2) f data_fields
    (fun m g hg => merge_data_step_pget_ne s2 m g f (fun he => hfd (he ▸ hg)))]

theorem pget_merge_states_messages (s1 s2 : PyDict) :
    pget (merge_states s1 s2) "messages" = pget s1 "messages" := by
  simp only [merge_states]
  rw [pget_pset_ne _ _ _ _ (by decide)]
  rw [pget_foldl_preserve (merge_flag_step s2) "messages" flag_fields
    (fun m g hg => merge_flag_step_pget_ne s2 m g _ (fun he => absurd (he ▸ hg) (by decide)))]
  rw [apply_ite (fun d => pget d "messages"), pget_pset_ne _ _ _ _ (by decide), ite_self]
  rw [pget_foldl_preserve (merge_list_step s2) "messages" list_fields
    (fun m g hg => merge_list_step_pget_ne s2 m g _ (fun he => absurd (he ▸ hg) (by decide)))]
  rw [pget_foldl_preserve (merge_data_step s2) "messages" data_fields
    (fun m g hg => merge_data_step_pget_ne s2 m g _ (fun he => absurd (he ▸ hg) (by decide)))]

theorem pget_g_merge_pre_preserved (b n : PyDict) (f : String)
    (h1 : f ≠ "analysis_results") (h2 : f ∉ g_data_fields) (h3 : f ∉ list_fields) :
    pget (g_merge_pre b n) f = pget b f := by
  simp only [g_merge_pre]
  rw [pget_foldl_preserve (g_list_step n) f list_fields
    (fun m g hg => g_list_step_pget_ne n m g f (fun he => h3 (he ▸ hg)))]
  rw [pget_foldl_preserve (g_data_step n) f g_data_fields
    (fun m g hg => g_data_step_pget_ne n m g f (fun he => h2 (he ▸ hg)))]
  rw [apply_ite (fun d => pget d f), pget_pset_ne _ _ _ _ h1, ite_self]
  rw [apply_ite (fun d => pget d f), pget_pset_ne _ _ _ _ h1, ite_self]

theorem pget_g_merge_pre_data (b n : PyDict) (f : String) (hfd : f ∈ g_data_fields) :
    pget (g_merge_pre b n) f =
      if getIsNone n f then pget b f else some (pgetD n f Value.none) := by
  have hside : f ≠ "analysis_results" ∧ f ∉ list_fields := by
    simp only [g_data_fields, List.mem_cons, List.not_mem_nil, or_false] at hfd
    rcases hfd with rfl | rfl | rfl | rfl | rfl | rfl | rfl | rfl <;> exact ⟨by decide, by decide⟩
  obtain ⟨h1, h3⟩ := hside
  simp only [g_merge_pre]
  rw [pget_foldl_preserve (g_list_step n) f list_fields
    (fun m g hg => g_list_step_pget_ne n m g f (fun he => h3 (he ▸ hg)))]
  rw [pget_foldl_first (g_data_step n) f
    (fun m g hgf => g_data_step_pget_ne n m g f hgf)
    (g_data_step_congr n f) g_data_fields hfd (by decide)]
  rw [g_data_step_pget_self]
  rw [apply_ite (fun d => pget d f), pget_pset_ne _ _ _ _ h1, ite_self]
  rw [apply_ite (fun d => pget d f), pget_pset_ne _ _ _ _ h1, ite_self]

theorem pget_g_merge_pre_list (b n : PyDict) (f : String) (hfl : f ∈ list_fields) :
    pget (g_merge_pre b n) f =
      if truthy (pgetD n f Value.none) then
        some (Value.list (pydedup
          (asList (pgetD b f (Value.list [])) ++ asList (pgetD n f (Value.list [])))))
      else pget b f := by
  have hside : f ≠ "analysis_results" ∧ f ∉ g_data_fields := by
    simp only [list_fields, List.mem_cons, List.not_mem_nil, or_false] at hfl
    rcases hfl with rfl | rfl | rfl | rfl <;> exact ⟨by decide, by decide⟩
  obtain ⟨h1, h2⟩ := hside
  simp only [g_merge_pre]
  rw [pget_foldl_first (g_list_step n) f
    (fun m g hgf => g_list_step_pget_ne n m g f hgf)
    (g_list_step_congr n f) list_fields hfl (by decide)]
  rw [g_list_step_pget_self]
  rw [pgetD_foldl_preserve (g_data_step n) f g_data_fields
    (fun m g hg => g_data_step_pget_ne n m g f (fun he => h2 (he ▸ hg)))]
  rw [pget_foldl_preserve (g_data_step n) f g_data_fields
    (fun m g hg => g_data_step_pget_ne n m g f (fun he => h2 (he ▸ hg)))]
  unfold pgetD
  rw [apply_ite (fun d => pget d f), pget_pset_ne _ _ _ _ h1, ite_self]
  rw [apply_ite (fun d => pget d f), pget_pset_ne _ _ _ _ h1, ite_self]

theorem pget_g_merge_states_data (s1 s2 : PyDict) (f : String) (hfd : f ∈ g_data_fields) :
    pget (g_merge_states s1 s2) f =
      if getIsNone s2 f then pget s1 f else pget s2 f := by
  have hfm : f ≠ "messages" := by
    simp only [g_data_fields, List.mem_cons, List.not_mem_nil, or_false] at hfd
    rcases hfd with rfl | rfl | rfl | rfl | rfl | rfl | rfl | rfl <;> decide
  simp only [g_merge_states]
  rw [apply_ite (fun d => pget d f), pget_pset_ne _ _ _ _ hfm, ite_self]
  rw [pget_g_merge_pre_data s1 s2 f hfd]
  by_cases hc : getIsNone s2 f
  · rw [if_pos hc, if_pos hc]
  · rw [if_neg hc, if_neg hc, pget_of_not_isNone (by simpa using hc) Value.none]

theorem pget_g_merge_states_list (s1 s2 : PyDict) (f : String) (hfl : f ∈ list_fields)
    (hfm : f ≠ "messages") :
    pget (g_merge_states s1 s2) f =
      if truthy (pgetD s2 f Value.none) then
        some (Value.list (pydedup
          (asList (pgetD s1 f (Value.list [])) ++ asList (pgetD s2 f (Value.list [])))))
      else pget s1 f := by
  simp only [g_merge_states]
  rw [apply_ite (fun d => pget d f), pget_pset_ne _ _ _ _ hfm, ite_self]
  rw [pget_g_merge_pre_list s1 s2 f hfl]

theorem pget_g_merge_states_messages (s1 s2 : PyDict) :
    pget (g_merge_states s1 s2) "messages" =
      if truthy (pgetD s2 "messages" Value.none) then
        some (Value.list
          (asList (pgetD s1 "messages" (Value.list []))
            ++ asList (pgetD s2 "messages" (Value.list []))))
      else pget s1 "messages" := by
  have hpre : pget (g_merge_pre s1 s2) "messages" = pget s1 "messages" :=
    pget_g_merge_pre_preserved s1 s2 "messages" (by decide) (by decide) (by decide)
  simp only [g_merge_states]
  rw [apply_ite (fun d => pget d "messages"), pget_pset_self]
  rw [pgetD_congr (Value.list []) hpre, hpre]

theorem pget_g_merge_states_preserved (s1 s2 : PyDict) (f : String)
    (h1 : f ≠ "analysis_results") (h2 : f ∉ g_data_fields) (h3 : f ∉ list_fields)
    (h4 : f ≠ "messages") :
    pget (g_merge_states s1 s2) f = pget s1 f := by
  simp only [g_merge_states]
  rw [apply_ite (fun d => pget d f), pget_pset_ne _ _ _ _ h4, ite_self]
  rw [pget_g_merge_pre_preserved s1 s2 f h1 h2 h3]

/-! ## Lemmas about serialization -/

mutual

theorem serialize_value_plain : ∀ v : Value, plain v = true → serialize_value v = v
  | Value.none, _ => by simp [serialize_value]
  | Value.bool _, _ => by simp [serialize_value]
  | Value.int _, _ => by simp [serialize_value]
  | Value.str _, _ => by simp [serialize_value]
  | Value.msg _, h => by simp [plain] at h
  | Value.list xs, h => by
      simp [serialize_value, serialize_items_plain xs (by rw [plain] at h; exact h)]
  | Value.dict d, h => by
      simp [serialize_value, make_serializable_plain d (by rw [plain] at h; exact h)]

theorem serialize_items_plain : ∀ xs : List Value, plain_items xs = true → serialize_items xs = xs
  | [], _ => by simp [serialize_items]
  | Value.dict d :: xs, h => by
      rw [plain_items, Bool.and_eq_true] at h
      simp [serialize_items, make_serializable_plain d (by rw [plain] at h; exact h.1),
        serialize_items_plain xs h.2]
  | Value.none :: xs, h => by
      rw [plain_items, Bool.and_eq_true] at h
      simp [serialize_items, serialize_items_plain xs h.2]
  | Value.bool _ :: xs, h => by
      rw [plain_items, Bool.and_eq_true] at h
      simp [serialize_items, serialize_items_plain xs h.2]
  | Value.int _ :: xs, h => by
      rw [plain_items, Bool.and_eq_true] at h
      simp [serialize_items, serialize_items_plain xs h.2]
  | Value.str _ :: xs, h => by
      rw [plain_items, Bool.and_eq_true] at h
      simp [serialize_items, serialize_items_plain xs h.2]
  | Value.list l :: xs, h => by
      rw [plain_items, Bool.and_eq_true] at h
      simp [serialize_items, serialize_items_plain xs h.2]
  | Value.msg _ :: xs, h => by
      rw [plain_items, Bool.and_eq_true] at h
      exact absurd h.1 (by simp [plain])

theorem make_serializable_plain :
    ∀ d : List (String × Value), plain_dict d = true → make_serializable d = d
  | [], _ => by simp [make_serializable]
  | (k, v) :: d, h => by
      rw [plain_dict] at h
      simp only [Bool.and_eq_true] at h
      rw [make_serializable, if_neg (by simpa using h.1.1),
        serialize_value_plain v h.1.2, make_serializable_plain d h.2]

end

theorem pget_make_serializable_ne :
    ∀ s : PyDict, (∀ kv ∈ s, kv.1 ≠ "messages" → plain kv.2 = true) →
      ∀ k : String, k ≠ "messages" → pget (make_serializable s) k = pget s k
  | [], _, _, _ => by simp [make_serializable]
  | (k0, v0) :: s, H, k, hk => by
    rw [make_serializable]
    by_cases h0 : k0 = k
    · subst h0
      have hbm : (k0 == "messages") = false := by simpa using hk
      have := serialize_value_plain v0 (H (k0, v0) (List.mem_cons_self _ _) hk)
      simp [pget, hbm, this]
    · have hb : (k0 == k) = false := by simpa using h0
      simp only [pget, hb, Bool.false_eq_true, if_false]
      exact pget_make_serializable_ne s
        (fun kv hkv => H kv (List.mem_cons_of_mem _ hkv)) k hk

theorem pget_make_serializable_messages :
    ∀ s : PyDict,
      pget (make_serializable s) "messages" =
        Option.map serialize_messages_slot (pget s "messages")
  | [] => by simp [make_serializable, pget]
  | (k0, v0) :: s => by
    rw [make_serializable]
    by_cases h0 : k0 = "messages"
    · subst h0
      simp [pget]
    · have hb : (k0 == "messages") = false := by simpa using h0
      simp only [pget, hb, Bool.false_eq_true, if_false]
      exact pget_make_serializable_messages s

theorem hasKey_make_serializable :
    ∀ (s : PyDict) (k : String), hasKey (make_serializable s) k = hasKey s k
  | [], _ => by simp [make_serializable]
  | (k0, v0) :: s, k => by
    rw [make_serializable]
    simp only [hasKey]
    rw [hasKey_make_serializable s k]

theorem serialize_message_list_eq_map :
    ∀ xs : List Value, serialize_message_list xs = xs.map serialize_message
  | [] => rfl
  | x :: xs => by rw [serialize_message_list, serialize_message_list_eq_map xs, List.map_cons]

/-- Serializing then deserializing one known message object keeps the class
name and the content and drops the `name` attribute. -/
theorem deserialize_serialize_msg (mg : Msg)
    (h : mg.mtype = "HumanMessage" ∨ mg.mtype = "AIMessage" ∨ mg.mtype = "SystemMessage") :
    deserialize_message (serialize_message (Value.msg mg)) =
      Value.msg ⟨mg.mtype, mg.content, Option.none⟩ := by
  rcases h with h | h | h <;>
    simp [serialize_message, deserialize_message, asDict, asStr, pgetD, pget, h]

theorem asList_eq_nil_of_not_truthy (v : Value) (h : truthy v = false) : asList v = [] := by
  cases v with
  | list xs =>
    simp only [truthy, Bool.not_eq_false'] at h
    simpa [asList] using h
  | msg m => simp [truthy] at h
  | none => rfl
  | bool b => rfl
  | int n => rfl
  | str s => rfl
  | dict d => rfl

theorem foldl_filter_append (p : String → Bool) :
    ∀ (l acc : List String),
      List.foldl (fun acc d => if p d then acc ++ [d] else acc) acc l = acc ++ l.filter p
  | [], acc => by simp
  | d :: l, acc => by
    by_cases h : p d = true
    · simp [List.foldl_cons, h, foldl_filter_append p l, List.filter_cons]
    · simp [List.foldl_cons, h, foldl_filter_append p l, List.filter_cons]

/-! ## Claims -/

/-- C1, counterexample: at a pair of states that both carry a non-None
`market_trends`, `_merge_states` returns the incoming value (so it is not
first-writer-wins), `merge_states` returns the base value, and the two merge
functions disagree — refuting both halves of the claim. -/
theorem C1_counterexample :
    pget [("market_trends", Value.str "base")] "market_trends" = some (Value.str "base")
    ∧ pget (g_merge_states [("market_trends", Value.str "base")]
        [("market_trends", Value.str "inc")]) "market_trends" = some (Value.str "inc")
    ∧ pget (merge_states [("market_trends", Value.str "base")]
        [("market_trends", Value.str "inc")]) "market_trends" = some (Value.str "base")
    ∧ merge_states [("market_trends", Value.str "base")] [("market_trends", Value.str "inc")]
        ≠ g_merge_states [("market_trends", Value.str "base")] [("market_trends", Value.str "inc")] := by
  refine ⟨rfl, rfl, rfl, ?_⟩
  intro h
  have h1 : pget (merge_states [("market_trends", Value.str "base")]
      [("market_trends", Value.str "inc")]) "market_trends" = some (Value.str "base") := rfl
  have h2 : pget (g_merge_states [("market_trends", Value.str "base")]
      [("market_trends", Value.str "inc")]) "market_trends" = some (Value.str "inc") := rfl
  rw [h, h2] at h1
  simp at h1

/-- C1, amended: `StateManager.merge_states` applies first-writer-wins to all
eleven data slots (incoming only fills a None base slot);
`EVMarketAnalysisGraph._merge_states` instead lets the incoming value
overwrite whenever it is not None, and covers only eight slots — `charts`,
`dashboard` and `final_report` are left untouched; consequently the two merge
functions are not equal. -/
theorem C1_merge_rules :
    (∀ (s1 s2 : PyDict) (f : String), f ∈ data_fields →
        pget (merge_states s1 s2) f =
          if getIsNone s1 f && !getIsNone s2 f then pget s2 f else pget s1 f)
    ∧ (∀ (s1 s2 : PyDict) (f : String), f ∈ g_data_fields →
        pget (g_merge_states s1 s2) f =
          if getIsNone s2 f then pget s1 f else pget s2 f)
    ∧ (∀ (s1 s2 : PyDict) (f : String),
        f = "charts" ∨ f = "dashboard" ∨ f = "final_report" →
        pget (g_merge_states s1 s2) f = pget s1 f)
    ∧ merge_states [("market_trends", Value.str "base")] [("market_trends", Value.str "inc")]
        ≠ g_merge_states [("market_trends", Value.str "base")] [("market_trends", Value.str "inc")] := by
  refine ⟨pget_merge_states_data, pget_g_merge_states_data, ?_, ?_⟩
  · intro s1 s2 f hf
    rcases hf with rfl | rfl | rfl <;>
      exact pget_g_merge_states_preserved s1 s2 _ (by decide) (by decide) (by decide) (by decide)
  · intro h
    have h1 : pget (merge_states [("market_trends", Value.str "base")]
        [("market_trends", Value.str "inc")]) "market_trends" = some (Value.str "base") := rfl
    have h2 : pget (g_merge_states [("market_trends", Value.str "base")]
        [("market_trends", Value.str "inc")]) "market_trends" = some (Value.str "inc") := rfl
    rw [h, h2] at h1
    simp at h1

/-- C1, witness: the amended rules applied at a concrete pair of states. -/
theorem C1_merge_rules_witness :
    pget (merge_states [("market_trends", Value.str "base")]
        [("market_trends", Value.str "inc")]) "market_trends" = some (Value.str "base")
    ∧ pget (g_merge_states [("market_trends", Value.str "base")]
        [("market_trends", Value.str "inc")]) "market_trends" = some (Value.str "inc")
    ∧ pget (g_merge_states [("charts", Value.str "base")] [("charts", Value.str "inc")])
        "charts" = some (Value.str "base") := by
  refine ⟨?_, ?_, ?_⟩
  · rw [C1_merge_rules.1 _ _ "market_trends" (by decide)]; rfl
  · rw [C1_merge_rules.2.1 _ _ "market_trends" (by decide)]; rfl
  · rw [C1_merge_rules.2.2.1 _ _ "charts" (Or.inl rfl)]; rfl

/-- C2, counterexample: when the first task of chain 1 raises, the chain
records the error and returns at once — the second task is never executed
(the result does not depend on it and `completed_agents` stays empty),
refuting "still executes every subsequent task in its list". -/
theorem C2_counterexample :
    execute_chain_1 (fun _ => Except.error "boom")
        (fun s => Except.ok (add_completed s "consumer_analysis"))
        [("completed_agents", Value.list []), ("errors", Value.list [])] =
      [("completed_agents", Value.list []),
       ("errors", Value.list [Value.str "Chain 1 실행 중 오류: boom"])]
    ∧ pget (execute_chain_1 (fun _ => Except.error "boom")
        (fun s => Except.ok (add_completed s "consumer_analysis"))
        [("completed_agents", Value.list []), ("errors", Value.list [])])
        "completed_agents" = some (Value.list [])
    ∧ execute_chain_1 (fun _ => Except.error "boom")
        (fun s => Except.ok (add_completed s "consumer_analysis"))
        [("completed_agents", Value.list []), ("errors", Value.list [])]
      = execute_chain_1 (fun _ => Except.error "boom") (fun _ => Except.error "other")
        [("completed_agents", Value.list []), ("errors", Value.list [])] :=
  ⟨rfl, rfl, rfl⟩

/-- C2, amended: one exception in a chain task aborts the rest of that chain:
the chain appends `Chain N 실행 중 오류: ...` to `errors` and returns
immediately, so the tasks after the failing one are never executed (the
result is independent of them). -/
theorem C2_chain_abort :
    (∀ (mr ca ca' : Task) (s : PyDict) (e : String),
        mr s = Except.error e →
          execute_chain_1 mr ca s = record_error s ("Chain 1 실행 중 오류: " ++ e)
          ∧ execute_chain_1 mr ca s = execute_chain_1 mr ca' s)
    ∧ (∀ (mr ca : Task) (s s1 : PyDict) (e : String),
        mr s = Except.ok s1 →
        ca (add_completed s1 "market_research") = Except.error e →
          execute_chain_1 mr ca s =
            record_error (add_completed s1 "market_research") ("Chain 1 실행 중 오류: " ++ e))
    ∧ (∀ (co te st te' st' : Task) (s : PyDict) (e : String),
        co s = Except.error e →
          execute_chain_2 co te st s = record_error s ("Chain 2 실행 중 오류: " ++ e)
          ∧ execute_chain_2 co te st s = execute_chain_2 co te' st' s) := by
  refine ⟨?_, ?_, ?_⟩
  · intro mr ca ca' s e h
    constructor <;> simp [execute_chain_1, h]
  · intro mr ca s s1 e h1 h2
    simp [execute_chain_1, h1, h2]
  · intro co te st te' st' s e h
    constructor <;> simp [execute_chain_2, h]

/-- C2, witness: the abort behavior at a concrete failing first task. -/
theorem C2_chain_abort_witness :
    execute_chain_1 (fun _ => Except.error "x") (fun s => Except.ok s) [] =
      record_error [] ("Chain 1 실행 중 오류: " ++ "x") :=
  (C2_chain_abort.1 (fun _ => Except.error "x") (fun s => Except.ok s)
    (fun s => Except.ok s) [] "x" rfl).1

/-- C3, counterexample: the branches created by `_execute_chain_2` are
`dict(state)` clones; appending `tech_analysis` to the tech branch's
`completed_agents` list is observable through the sibling stock branch and
through the pre-fan-out snapshot itself, refuting the claimed isolation. -/
theorem C3_counterexample :
    hget (happend (fun _ => ([] : List String))
        (dict_copy ⟨0, 1, 2, 3⟩).completed_agents "tech_analysis")
      (dict_copy ⟨0, 1, 2, 3⟩).completed_agents = ["tech_analysis"]
    ∧ hget (happend (fun _ => ([] : List String))
        (dict_copy ⟨0, 1, 2, 3⟩).completed_agents "tech_analysis")
      (⟨0, 1, 2, 3⟩ : RefState).completed_agents = ["tech_analysis"]
    ∧ hget (fun _ => ([] : List String)) (⟨0, 1, 2, 3⟩ : RefState).completed_agents = [] :=
  ⟨rfl, rfl, rfl⟩

/-- C3, amended: each branch receives only a shallow `dict(state)` clone: the
nested list objects are shared, so an in-place append performed through one
branch is observable through every alias of the snapshot; a deep clone onto
fresh list objects (which the code does not perform) would isolate it. -/
theorem C3_shallow_clone {α : Type} :
    (∀ (h : Heap α) (s : RefState) (x : α),
        hget (happend h (dict_copy s).completed_agents x) s.completed_agents
          = hget h s.completed_agents ++ [x])
    ∧ (∀ (h : Heap α) (s : RefState) (x : α) (base : Nat),
        s.completed_agents < base →
        hget (happend (deep_copy h s base).1 (deep_copy h s base).2.completed_agents x)
          s.completed_agents = hget h s.completed_agents) := by
  constructor
  · intro h s x
    simp [dict_copy, happend, hget]
  · intro h s x base hb
    simp only [deep_copy, happend, hget]
    rw [if_neg (by omega), if_neg (by omega), if_neg (by omega), if_neg (by omega),
      if_neg (by omega)]

/-- C3, witness: the sharing and the deep-copy contrast at a concrete heap. -/
theorem C3_shallow_clone_witness :
    hget (happend (fun _ => ([] : List String))
        (dict_copy ⟨0, 1, 2, 3⟩).completed_agents "tech")
      (⟨0, 1, 2, 3⟩ : RefState).completed_agents
        = hget (fun _ => ([] : List String)) (⟨0, 1, 2, 3⟩ : RefState).completed_agents ++ ["tech"]
    ∧ hget (happend (deep_copy (fun _ => ([] : List String)) ⟨0, 1, 2, 3⟩ 10).1
        (deep_copy (fun _ => ([] : List String)) ⟨0, 1, 2, 3⟩ 10).2.completed_agents "tech")
      (⟨0, 1, 2, 3⟩ : RefState).completed_agents
        = hget (fun _ => ([] : List String)) (⟨0, 1, 2, 3⟩ : RefState).completed_agents :=
  ⟨C3_shallow_clone.1 (fun _ => []) ⟨0, 1, 2, 3⟩ "tech",
   C3_shallow_clone.2 (fun _ => []) ⟨0, 1, 2, 3⟩ "tech" 10 (by decide)⟩

/-- C4, counterexample: `StateManager.merge_states` does not merge `messages`
at all — the incoming state's message is dropped, refuting "for every merge
site". -/
theorem C4_counterexample :
    pget (merge_states [("messages", Value.list [])]
        [("messages", Value.list [Value.str "m"])]) "messages" = some (Value.list [])
    ∧ pget [("messages", Value.list [Value.str "m"])] "messages"
        = some (Value.list [Value.str "m"]) :=
  ⟨rfl, rfl⟩

/-- C4, amended: `_merge_states` concatenates `messages` (base then incoming,
order preserved, no de-dup) whenever the incoming list is non-empty, and keeps
the base sequence when the incoming slot is falsy; `StateManager.merge_states`
does not merge `messages` at all — the merged state keeps the base sequence
and the incoming one is lost. -/
theorem C4_messages_merge :
    (∀ s1 s2 : PyDict, pget (merge_states s1 s2) "messages" = pget s1 "messages")
    ∧ (∀ (s1 s2 : PyDict) (bs ms : List Value),
        pget s1 "messages" = some (Value.list bs) →
        pget s2 "messages" = some (Value.list ms) → ms ≠ [] →
        pget (g_merge_states s1 s2) "messages" = some (Value.list (bs ++ ms)))
    ∧ (∀ s1 s2 : PyDict, truthy (pgetD s2 "messages" Value.none) = false →
        pget (g_merge_states s1 s2) "messages" = pget s1 "messages") := by
  refine ⟨pget_merge_states_messages, ?_, ?_⟩
  · intro s1 s2 bs ms h1 h2 hms
    rw [pget_g_merge_states_messages]
    have ht : truthy (pgetD s2 "messages" Value.none) = true := by
      simp [pgetD, h2, truthy, hms]
    rw [if_pos ht]
    simp [pgetD, h1, h2, asList]
  · intro s1 s2 h
    rw [pget_g_merge_states_messages, if_neg (by simp [h])]

/-- C4, witness: concatenation at `_merge_states` and loss at `merge_states`
on concrete states. -/
theorem C4_messages_merge_witness :
    pget (g_merge_states [("messages", Value.list [Value.str "a"])]
        [("messages", Value.list [Value.str "b"])]) "messages"
      = some (Value.list [Value.str "a", Value.str "b"])
    ∧ pget (merge_states [("messages", Value.list [Value.str "a"])]
        [("messages", Value.list [Value.str "b"])]) "messages"
      = some (Value.list [Value.str "a"]) := by
  constructor
  · exact C4_messages_merge.2.1 _ _ [Value.str "a"] [Value.str "b"] rfl rfl (by simp)
  · rw [C4_messages_merge.1]
    rfl

/-- C5, counterexample: `update_state` replaces `completed_agents` outright,
so a pipeline state-transforming operation can shrink the completed set —
refuting "union-only and never shrinks" over every operation. -/
theorem C5_counterexample :
    pget [("completed_agents", Value.list [Value.str "market_research"]),
        ("warnings", Value.list [])] "completed_agents"
      = some (Value.list [Value.str "market_research"])
    ∧ pget (update_state
        [("completed_agents", Value.list [Value.str "market_research"]),
         ("warnings", Value.list [])]
        [("completed_agents", Value.list [])]) "completed_agents"
      = some (Value.list []) :=
  ⟨rfl, rfl⟩

/-- C5, amended: `completed_agents` is union-only (as a set of entries) across
both merge functions and across task completion marking, but `update_state`
replaces the field outright with the supplied list, which can shrink it. -/
theorem C5_completed_agents :
    (∀ (s1 s2 : PyDict) (x : Value),
        x ∈ asList (pgetD s1 "completed_agents" (Value.list [])) →
        x ∈ asList (pgetD (merge_states s1 s2) "completed_agents" (Value.list [])))
    ∧ (∀ (s1 s2 : PyDict) (x : Value),
        x ∈ asList (pgetD s2 "completed_agents" (Value.list [])) →
        x ∈ asList (pgetD (merge_states s1 s2) "completed_agents" (Value.list [])))
    ∧ (∀ (s1 s2 : PyDict) (x : Value),
        x ∈ asList (pgetD s1 "completed_agents" (Value.list [])) →
        x ∈ asList (pgetD (g_merge_states s1 s2) "completed_agents" (Value.list [])))
    ∧ (∀ (s1 s2 : PyDict) (x : Value),
        x ∈ asList (pgetD s2 "completed_agents" (Value.list [])) →
        x ∈ asList (pgetD (g_merge_states s1 s2) "completed_agents" (Value.list [])))
    ∧ (∀ (s : PyDict) (a : String) (x : Value),
        x ∈ asList (pgetD s "completed_agents" (Value.list [])) →
        x ∈ asList (pgetD (add_completed s a) "completed_agents" (Value.list [])))
    ∧ (∀ (s : PyDict) (a : String),
        Value.str a ∈ asList (pgetD (add_completed s a) "completed_agents" (Value.list [])))
    ∧ (∀ (s : PyDict) (vs : List Value),
        pget (update_state s [("completed_agents", Value.list vs)]) "completed_agents"
          = some (Value.list vs)) := by
  refine ⟨?_, ?_, ?_, ?_, ?_, ?_, ?_⟩
  · intro s1 s2 x hx
    show x ∈ asList ((pget (merge_states s1 s2) "completed_agents").getD (Value.list []))
    rw [pget_merge_states_list s1 s2 "completed_agents" (by decide)]
    by_cases hc : hasKey s2 "completed_agents" = true
    · rw [if_pos hc]
      exact mem_pydedup.mpr (List.mem_append_left _ hx)
    · rw [if_neg hc]
      exact hx
  · intro s1 s2 x hx
    show x ∈ asList ((pget (merge_states s1 s2) "completed_agents").getD (Value.list []))
    rw [pget_merge_states_list s1 s2 "completed_agents" (by decide)]
    by_cases hc : hasKey s2 "completed_agents" = true
    · rw [if_pos hc]
      exact mem_pydedup.mpr (List.mem_append_right _ hx)
    · rw [if_neg hc]
      have hnone : pget s2 "completed_agents" = Option.none := by
        have hs := hasKey_eq_isSome s2 "completed_agents"
        rw [hs] at hc
        cases hp : pget s2 "completed_agents"
        · rfl
        · rw [hp] at hc
          simp at hc
      have hx2 : x ∈ asList ((pget s2 "completed_agents").getD (Value.list [])) := hx
      rw [hnone] at hx2
      simp [asList] at hx2
  · intro s1 s2 x hx
    show x ∈ asList ((pget (g_merge_states s1 s2) "completed_agents").getD (Value.list []))
    rw [pget_g_merge_states_list s1 s2 "completed_agents" (by decide) (by decide)]
    by_cases hc : truthy (pgetD s2 "completed_agents" Value.none) = true
    · rw [if_pos hc]
      exact mem_pydedup.mpr (List.mem_append_left _ hx)
    · rw [if_neg hc]
      exact hx
  · intro s1 s2 x hx
    show x ∈ asList ((pget (g_merge_states s1 s2) "completed_agents").getD (Value.list []))
    rw [pget_g_merge_states_list s1 s2 "completed_agents" (by decide) (by decide)]
    by_cases hc : truthy (pgetD s2 "completed_agents" Value.none) = true
    · rw [if_pos hc]
      exact mem_pydedup.mpr (List.mem_append_right _ hx)
    · rw [if_neg hc]
      exfalso
      have hnil : asList (pgetD s2 "completed_agents" Value.none) = [] :=
        asList_eq_nil_of_not_truthy _ (by simpa using hc)
      have hx2 : x ∈ asList ((pget s2 "completed_agents").getD (Value.list [])) := hx
      have hnil2 : asList ((pget s2 "completed_agents").getD Value.none) = [] := hnil
      cases hp : pget s2 "completed_agents" with
      | none =>
        rw [hp] at hx2
        simp [asList] at hx2
      | some v =>
        rw [hp] at hx2 hnil2
        simp only [Option.getD] at hx2 hnil2
        rw [hnil2] at hx2
        simp at hx2
  · intro s a x hx
    show x ∈ asList ((pget (add_completed s a) "completed_agents").getD (Value.list []))
    unfold add_completed
    rw [pget_pset_self]
    exact List.mem_append_left _ hx
  · intro s a
    show Value.str a ∈ asList ((pget (add_completed s a) "completed_agents").getD (Value.list []))
    unfold add_completed
    rw [pget_pset_self]
    exact List.mem_append_right _ (List.mem_singleton.mpr rfl)
  · intro s vs
    by_cases hc : hasKey s "completed_agents" = true
    · simp [update_state, update_step, hc, pget_pset_self]
    · simp only [update_state, List.foldl_cons, List.foldl_nil, update_step, hc,
        Bool.false_eq_true, if_false]
      rw [pget_pset_ne _ _ _ _ (by decide), pget_pset_self]

/-- C5, witness: union-only merging and outright replacement at concrete
states. -/
theorem C5_completed_agents_witness :
    Value.str "a" ∈ asList (pgetD (merge_states
        [("completed_agents", Value.list [Value.str "a"])]
        [("completed_agents", Value.list [Value.str "b"])]) "completed_agents" (Value.list []))
    ∧ Value.str "b" ∈ asList (pgetD (merge_states
        [("completed_agents", Value.list [Value.str "a"])]
        [("completed_agents", Value.list [Value.str "b"])]) "completed_agents" (Value.list []))
    ∧ pget (update_state [("completed_agents", Value.list [Value.str "a"]),
        ("warnings", Value.list [])] [("completed_agents", Value.list [])])
        "completed_agents" = some (Value.list []) :=
  ⟨C5_completed_agents.1 _ _ _ (by decide),
   C5_completed_agents.2.1 _ _ _ (by decide),
   C5_completed_agents.2.2.2.2.2.2 _ []⟩

/-- C6, counterexample: `SupervisorAgent.process` increments its own
`iteration_count` attribute but leaves the shared state's
`current_iteration` field untouched, refuting "increments the state's
iteration counter by exactly one". -/
theorem C6_counterexample :
    pget (Supervisor.process (Supervisor.init 10)
        [("current_iteration", Value.int 0)] "t").2 "current_iteration"
      = some (Value.int 0)
    ∧ (Supervisor.process (Supervisor.init 10)
        [("current_iteration", Value.int 0)] "t").1.iteration_count = 1 :=
  ⟨rfl, rfl⟩

/-- C6, amended: each call to `SupervisorAgent.process` increments the
supervisor's own iteration counter by exactly one (the shared state's
`current_iteration` is not modified), performs at most one stage transition
(to the next stage or staying put), and once the counter exceeds
`max_iterations` the call returns the state with
`error = "Maximum iterations exceeded"` and does no stage processing; with
`max_iterations = 3` and a never-true guard the loop reaches the error state
right after the 3rd pass. -/
theorem C6_supervisor :
    (∀ (sup : Supervisor) (s : PyDict) (ts : String),
        (Supervisor.process sup s ts).1.iteration_count = sup.iteration_count + 1)
    ∧ (∀ (sup : Supervisor) (s : PyDict) (ts : String),
        pget (Supervisor.process sup s ts).2 "current_iteration"
          = pget s "current_iteration")
    ∧ (∀ (sup : Supervisor) (s : PyDict) (ts : String),
        (Supervisor.process sup s ts).1.current_stage = sup.current_stage
        ∨ (Supervisor.process sup s ts).1.current_stage = stage_next sup.current_stage)
    ∧ (∀ (sup : Supervisor) (s : PyDict) (ts : String),
        sup.iteration_count + 1 > sup.max_iterations →
        Supervisor.process sup s ts =
          ({ sup with iteration_count := sup.iteration_count + 1 },
            pset s "error" (Value.str "Maximum iterations exceeded")))
    ∧ ((supervisor_iterate (Supervisor.init 3) [] "t" 3).1.current_stage
          = WorkflowStage.data_collection
        ∧ pget (supervisor_iterate (Supervisor.init 3) [] "t" 3).2 "error" = Option.none
        ∧ pget (supervisor_iterate (Supervisor.init 3) [] "t" 4).2 "error"
            = some (Value.str "Maximum iterations exceeded")
        ∧ (supervisor_iterate (Supervisor.init 3) [] "t" 4).1.current_stage
            = WorkflowStage.data_collection) := by
  refine ⟨?_, ?_, ?_, ?_, rfl, rfl, rfl, rfl⟩
  · intro sup s ts
    obtain ⟨st, ag, ic, mi⟩ := sup
    by_cases h : ic + 1 > mi
    · simp [Supervisor.process, h]
    · cases st <;>
        simp [Supervisor.process, h, initialize_workflow, coordinate_data_collection,
          coordinate_analysis, coordinate_synthesis, coordinate_reporting, apply_ite]
  · intro sup s ts
    obtain ⟨st, ag, ic, mi⟩ := sup
    by_cases h : ic + 1 > mi
    · simp [Supervisor.process, h, pget_pset_ne]
    · cases st <;>
        simp [Supervisor.process, h, initialize_workflow, coordinate_data_collection,
          coordinate_analysis, coordinate_synthesis, coordinate_reporting, apply_ite,
          pget_pset_ne] <;>
        (try (split <;> simp [pget_pset_ne]))
  · intro sup s ts
    obtain ⟨st, ag, ic, mi⟩ := sup
    by_cases h : ic + 1 > mi
    · left
      simp [Supervisor.process, h]
    · cases st with
      | initialization =>
        right
        simp [Supervisor.process, h, initialize_workflow, stage_next]
      | data_collection =>
        by_cases hp : ((ag.filter (fun p => p.2 == "pending")).map (fun p => p.1)).isEmpty = true
        · right
          simp [Supervisor.process, h, coordinate_data_collection, hp, stage_next]
        · left
          simp [Supervisor.process, h, coordinate_data_collection, hp]
      | analysis =>
        by_cases hp : (truthy (pgetD s "market_trends" Value.none) &&
            truthy (pgetD s "consumer_patterns" Value.none) &&
            truthy (pgetD s "company_analysis" Value.none) &&
            truthy (pgetD s "tech_trends" Value.none) &&
            truthy (pgetD s "stock_analysis" Value.none)) = true
        · right
          simp only [Supervisor.process, coordinate_analysis]
          rw [if_neg h, if_pos hp]
          simp [stage_next]
        · left
          simp only [Supervisor.process, coordinate_analysis]
          rw [if_neg h, if_neg hp]
      | synthesis =>
        by_cases hp : truthy (pgetD s "charts_generated" Value.none) = true
        · right
          simp [Supervisor.process, h, coordinate_synthesis, hp, stage_next]
        · left
          simp [Supervisor.process, h, coordinate_synthesis, hp]
      | reporting =>
        by_cases hp : truthy (pgetD s "final_report" Value.none) = true
        · right
          simp [Supervisor.process, h, coordinate_reporting, hp, stage_next]
        · left
          simp [Supervisor.process, h, coordinate_reporting, hp]
      | completed =>
        left
        simp [Supervisor.process, h]
  · intro sup s ts h
    obtain ⟨st, ag, ic, mi⟩ := sup
    simp only [Supervisor.process]
    rw [if_pos h]

/-- C6, witness: the error state at a concrete supervisor past its ceiling. -/
theorem C6_supervisor_witness :
    Supervisor.process
        { current_stage := WorkflowStage.data_collection, agent_status := [],
          iteration_count := 3, max_iterations := 3 } [] "t"
      = ({ current_stage := WorkflowStage.data_collection, agent_status := [],
           iteration_count := 4, max_iterations := 3 },
         pset [] "error" (Value.str "Maximum iterations exceeded")) :=
  C6_supervisor.2.2.2.1
    { current_stage := WorkflowStage.data_collection, agent_status := [],
      iteration_count := 3, max_iterations := 3 } [] "t" (by decide)

/-- C7: `update_state` appends the supplied lists for `messages`, `errors`,
`warnings` and `logs`; replaces `next_agents`, `pending_agents` and
`completed_agents` outright; overwrites every other present key; adds an
absent key together with a `New field added to state` warning instead of
failing; and a multi-key update is the left-to-right composition of the
single-key steps. -/
theorem C7_update_state :
    (∀ (s : PyDict) (k : String) (vs : List Value),
        (k = "messages" ∨ k = "errors" ∨ k = "warnings" ∨ k = "logs") →
        hasKey s k = true →
        pget (update_state s [(k, Value.list vs)]) k
            = some (Value.list (asList (pgetD s k (Value.list [])) ++ vs))
          ∧ ∀ q, q ≠ k → pget (update_state s [(k, Value.list vs)]) q = pget s q)
    ∧ (∀ (s : PyDict) (k : String) (vs : List Value),
        (k = "next_agents" ∨ k = "pending_agents" ∨ k = "completed_agents") →
        hasKey s k = true →
        pget (update_state s [(k, Value.list vs)]) k = some (Value.list vs)
          ∧ ∀ q, q ≠ k → pget (update_state s [(k, Value.list vs)]) q = pget s q)
    ∧ (∀ (s : PyDict) (k : String) (v : Value),
        hasKey s k = true →
        k ≠ "messages" → k ≠ "errors" → k ≠ "warnings" → k ≠ "logs" →
        k ≠ "next_agents" → k ≠ "pending_agents" → k ≠ "completed_agents" →
        pget (update_state s [(k, v)]) k = some v
          ∧ ∀ q, q ≠ k → pget (update_state s [(k, v)]) q = pget s q)
    ∧ (∀ (s : PyDict) (k : String) (v : Value),
        hasKey s k = false → k ≠ "warnings" →
        pget (update_state s [(k, v)]) k = some v
          ∧ pget (update_state s [(k, v)]) "warnings"
              = some (Value.list (asList (pgetD s "warnings" (Value.list []))
                  ++ [Value.str ("New field added to state: " ++ k)]))
          ∧ ∀ q, q ≠ k → q ≠ "warnings" → pget (update_state s [(k, v)]) q = pget s q)
    ∧ (∀ (s : PyDict) (u : String × Value) (us : List (String × Value)),
        update_state s (u :: us) = update_state (update_step s u.1 u.2) us) := by
  refine ⟨?_, ?_, ?_, ?_, fun s u us => rfl⟩
  · intro s k vs hk hhas
    rcases hk with rfl | rfl | rfl | rfl <;>
      exact ⟨by simp [update_state, update_step, hhas, pget_pset_self],
        fun q hq => by simp [update_state, update_step, hhas, pget_pset_ne _ _ _ _ hq]⟩
  · intro s k vs hk hhas
    rcases hk with rfl | rfl | rfl <;>
      exact ⟨by simp [update_state, update_step, hhas, pget_pset_self],
        fun q hq => by simp [update_state, update_step, hhas, pget_pset_ne _ _ _ _ hq]⟩
  · intro s k v hhas h1 h2 h3 h4 h5 h6 h7
    constructor
    · simp [update_state, update_step, hhas, h1, h2, h3, h4, h5, h6, h7, pget_pset_self]
    · intro q hq
      simp [update_state, update_step, hhas, h1, h2, h3, h4, h5, h6, h7,
        pget_pset_ne _ _ _ _ hq]
  · intro s k v hhas hkw
    have hwk : "warnings" ≠ k := fun he => hkw he.symm
    refine ⟨?_, ?_, ?_⟩
    · show pget (update_step s k v) k = some v
      simp only [update_step, hhas, Bool.false_eq_true, if_false]
      rw [pget_pset_ne _ _ _ _ hkw, pget_pset_self]
    · show pget (update_step s k v) "warnings"
        = some (Value.list (asList (pgetD s "warnings" (Value.list []))
            ++ [Value.str ("New field added to state: " ++ k)]))
      simp only [update_step, hhas, Bool.false_eq_true, if_false]
      rw [pget_pset_self, pgetD_pset_ne _ _ _ _ _ hwk]
    · intro q hq hqw
      show pget (update_step s k v) q = pget s q
      simp only [update_step, hhas, Bool.false_eq_true, if_false]
      rw [pget_pset_ne _ _ _ _ hqw, pget_pset_ne _ _ _ _ hq]

/-- C7, witness: each update category at a concrete state. -/
theorem C7_update_state_witness :
    pget (update_state
        [("errors", Value.list []), ("warnings", Value.list []),
         ("workflow_stage", Value.str "initialization")]
        [("errors", Value.list [Value.str "e"])]) "errors"
      = some (Value.list (asList (pgetD
          [("errors", Value.list []), ("warnings", Value.list []),
           ("workflow_stage", Value.str "initialization")] "errors" (Value.list []))
          ++ [Value.str "e"]))
    ∧ pget (update_state
        [("next_agents", Value.list [Value.str "a"])]
        [("next_agents", Value.list [])]) "next_agents" = some (Value.list [])
    ∧ pget (update_state
        [("workflow_stage", Value.str "initialization")]
        [("workflow_stage", Value.str "analysis")]) "workflow_stage"
      = some (Value.str "analysis")
    ∧ pget (update_state [("warnings", Value.list [])] [("zzz", Value.int 1)]) "warnings"
      = some (Value.list (asList (pgetD [("warnings", Value.list [])] "warnings" (Value.list []))
          ++ [Value.str ("New field added to state: " ++ "zzz")])) :=
  ⟨(C7_update_state.1
      [("errors", Value.list []), ("warnings", Value.list []),
       ("workflow_stage", Value.str "initialization")]
      "errors" [Value.str "e"] (Or.inr (Or.inl rfl)) rfl).1,
   (C7_update_state.2.1 [("next_agents", Value.list [Value.str "a"])]
      "next_agents" [] (Or.inl rfl) rfl).1,
   (C7_update_state.2.2.1 [("workflow_stage", Value.str "initialization")]
      "workflow_stage" (Value.str "analysis") rfl (by decide)
      (by decide) (by decide) (by decide) (by decide) (by decide) (by decide)).1,
   (C7_update_state.2.2.2.1 [("warnings", Value.list [])]
      "zzz" (Value.int 1) rfl (by decide)).2.1⟩

/-- C8: `check_dependencies` returns exactly the declared prerequisites that
are unsatisfied (data prerequisites absent/None, `_generated` flag
prerequisites falsy), with `ready = true` exactly when that list is empty;
and the spec's scenario: with `market_trends = {}` and
`government_policies = {}` present-but-empty, `consumer_analysis` is ready;
with `government_policies` removed it is not, missing exactly
`government_policies`. -/
theorem C8_check_dependencies :
    (∀ (state : PyDict) (agent_name : String),
        (check_dependencies state agent_name).2
            = (depsOf agent_name).filter (fun d => depMissing state d)
          ∧ ((check_dependencies state agent_name).1 = true ↔
              ∀ d ∈ depsOf agent_name, depMissing state d = false))
    ∧ check_dependencies
        [("market_trends", Value.dict []), ("government_policies", Value.dict [])]
        "consumer_analysis" = (true, [])
    ∧ check_dependencies [("market_trends", Value.dict [])] "consumer_analysis"
        = (false, ["government_policies"]) := by
  refine ⟨?_, rfl, rfl⟩
  intro state a
  have hm : (check_dependencies state a).2
      = (depsOf a).filter (fun d => depMissing state d) := by
    show List.foldl (fun acc dep => if depMissing state dep then acc ++ [dep] else acc)
        [] (depsOf a) = (depsOf a).filter (fun d => depMissing state d)
    simpa using foldl_filter_append (fun d => depMissing state d) (depsOf a) []
  refine ⟨hm, ?_⟩
  have h1 : (check_dependencies state a).1
      = ((check_dependencies state a).2.length == 0) := rfl
  rw [h1, hm]
  constructor
  · intro h d hd
    have hnil : (depsOf a).filter (fun d => depMissing state d) = [] :=
      List.length_eq_zero.mp (by simpa using h)
    by_contra hne
    have hmem : d ∈ (depsOf a).filter (fun d => depMissing state d) :=
      List.mem_filter.mpr ⟨hd, by simpa using hne⟩
    rw [hnil] at hmem
    simp at hmem
  · intro h
    have hnil : (depsOf a).filter (fun d => depMissing state d) = [] := by
      rw [List.filter_eq_nil_iff]
      intro d hd
      simp [h d hd]
    simp [hnil]

/-- C9, counterexample: loading a checkpoint appends a
`State restored from checkpoint` entry to `logs`, so `load(save(state))` does
not reproduce the `logs` field, which is not among the allowed lossy message
fields. -/
theorem C9_counterexample :
    pget [("workflow_id", Value.str "wf"), ("logs", Value.list []),
        ("messages", Value.list [])] "logs" = some (Value.list [])
    ∧ pget (load_checkpoint "cp.json" (save_checkpoint
        [("workflow_id", Value.str "wf"), ("logs", Value.list []),
         ("messages", Value.list [])])) "logs"
      = some (Value.list [Value.str "State restored from checkpoint: cp.json"]) := by
  constructor
  · rfl
  · have hs : save_checkpoint
        [("workflow_id", Value.str "wf"), ("logs", Value.list []),
         ("messages", Value.list [])]
      = [("workflow_id", Value.str "wf"), ("logs", Value.list []),
         ("messages", Value.list [])] := by
      simp [save_checkpoint, make_serializable, serialize_value, serialize_items,
        serialize_messages_slot, serialize_message_list]
    rw [hs]
    rfl

/-- C9, amended: for a state whose non-`messages` values are plain
serializable data and whose `messages` are Human/AI/System message objects,
`load(save(state))` reproduces every field except the allowed lossy
`messages` (each message comes back with the same type and content, its
`name` attribute dropped) and except `logs`, which additionally gains the
`State restored from checkpoint` entry. -/
theorem C9_roundtrip (s : PyDict) (p : String) (ms ls : List Value)
    (H1 : ∀ kv ∈ s, kv.1 ≠ "messages" → plain kv.2 = true)
    (H2 : pget s "messages" = some (Value.list ms))
    (H3 : ∀ v ∈ ms, ∃ mg : Msg, v = Value.msg mg ∧
        (mg.mtype = "HumanMessage" ∨ mg.mtype = "AIMessage" ∨ mg.mtype = "SystemMessage"))
    (H4 : pget s "logs" = some (Value.list ls)) :
    (∀ k, k ≠ "messages" → k ≠ "logs" →
        pget (load_checkpoint p (save_checkpoint s)) k = pget s k)
    ∧ pget (load_checkpoint p (save_checkpoint s)) "messages"
        = some (Value.list (ms.map (fun v =>
            match v with
            | Value.msg mg => Value.msg ⟨mg.mtype, mg.content, Option.none⟩
            | v => v)))
    ∧ pget (load_checkpoint p (save_checkpoint s)) "logs"
        = some (Value.list (ls ++ [Value.str ("State restored from checkpoint: " ++ p)])) := by
  have hks : hasKey (make_serializable s) "messages" = true := by
    rw [hasKey_make_serializable, hasKey_eq_isSome, H2]
    rfl
  have hpm : pgetD (make_serializable s) "messages" (Value.list [])
      = Value.list (serialize_message_list ms) := by
    show (pget (make_serializable s) "messages").getD (Value.list [])
      = Value.list (serialize_message_list ms)
    rw [pget_make_serializable_messages, H2]
    simp [serialize_messages_slot]
  have hload : load_checkpoint p (save_checkpoint s)
      = pset (pset (make_serializable s) "messages"
            (Value.list ((serialize_message_list ms).map deserialize_message)))
          "logs"
          (Value.list (asList (pgetD (pset (make_serializable s) "messages"
              (Value.list ((serialize_message_list ms).map deserialize_message)))
              "logs" (Value.list []))
            ++ [Value.str ("State restored from checkpoint: " ++ p)])) := by
    show load_checkpoint p (make_serializable s) = _
    unfold load_checkpoint deserialize_state
    rw [hks, hpm]
    simp
  have hlogs2 : pgetD (pset (make_serializable s) "messages"
        (Value.list ((serialize_message_list ms).map deserialize_message)))
      "logs" (Value.list []) = Value.list ls := by
    rw [pgetD_pset_ne _ _ _ _ _ (by decide)]
    show (pget (make_serializable s) "logs").getD (Value.list []) = Value.list ls
    rw [pget_make_serializable_ne s H1 "logs" (by decide), H4]
    rfl
  refine ⟨?_, ?_, ?_⟩
  · intro k hk1 hk2
    rw [hload, pget_pset_ne _ _ _ _ hk2, pget_pset_ne _ _ _ _ hk1,
      pget_make_serializable_ne s H1 k hk1]
  · rw [hload, pget_pset_ne _ _ _ _ (by decide), pget_pset_self,
      serialize_message_list_eq_map, List.map_map]
    have hmap : ms.map (deserialize_message ∘ serialize_message)
        = ms.map (fun v =>
            match v with
            | Value.msg mg => Value.msg ⟨mg.mtype, mg.content, Option.none⟩
            | v => v) := by
      apply List.map_congr_left
      intro v hv
      obtain ⟨mg, rfl, htype⟩ := H3 v hv
      show deserialize_message (serialize_message (Value.msg mg)) = _
      rw [deserialize_serialize_msg mg htype]
    rw [hmap]
  · rw [hload, pget_pset_self, hlogs2]
    rfl

/-- C9, witness: the amended round trip at a concrete state with one
AI message. -/
theorem C9_roundtrip_witness :
    pget (load_checkpoint "cp" (save_checkpoint
        [("workflow_id", Value.str "wf"), ("logs", Value.list []),
         ("messages", Value.list [Value.msg ⟨"AIMessage", "hi", some "bot"⟩])]))
      "workflow_id" = some (Value.str "wf")
    ∧ pget (load_checkpoint "cp" (save_checkpoint
        [("workflow_id", Value.str "wf"), ("logs", Value.list []),
         ("messages", Value.list [Value.msg ⟨"AIMessage", "hi", some "bot"⟩])]))
      "messages" = some (Value.list [Value.msg ⟨"AIMessage", "hi", Option.none⟩])
    ∧ pget (load_checkpoint "cp" (save_checkpoint
        [("workflow_id", Value.str "wf"), ("logs", Value.list []),
         ("messages", Value.list [Value.msg ⟨"AIMessage", "hi", some "bot"⟩])]))
      "logs" = some (Value.list [Value.str ("State restored from checkpoint: " ++ "cp")]) := by
  have h := C9_roundtrip
    [("workflow_id", Value.str "wf"), ("logs", Value.list []),
     ("messages", Value.list [Value.msg ⟨"AIMessage", "hi", some "bot"⟩])]
    "cp" [Value.msg ⟨"AIMessage", "hi", some "bot"⟩] []
    (by intro kv hkv hne
        simp only [List.mem_cons, List.not_mem_nil, or_false] at hkv
        rcases hkv with rfl | rfl | rfl
        · rfl
        · rfl
        · exact absurd rfl hne)
    rfl
    (by intro v hv
        simp only [List.mem_cons, List.not_mem_nil, or_false] at hv
        subst hv
        exact ⟨⟨"AIMessage", "hi", some "bot"⟩, rfl, Or.inr (Or.inl rfl)⟩)
    rfl
  exact ⟨h.1 "workflow_id" (by decide) (by decide), h.2.1, h.2.2⟩

/-- C10: a task identifier with no entry in the static dependency table is
always reported ready with an empty missing list, whatever the state holds. -/
theorem C10_undeclared_ready :
    ∀ (state : PyDict) (agent_name : String),
      agent_name ∉ dependencies.map Prod.fst →
      check_dependencies state agent_name = (true, []) := by
  intro s a h
  simp only [dependencies, List.map_cons, List.map_nil, List.mem_cons,
    List.not_mem_nil, or_false, not_or] at h
  obtain ⟨h1, h2, h3, h4⟩ := h
  have hd : depsOf a = [] := by
    have b1 : ("consumer_analysis" == a) = false := by simpa using fun he => h1 he.symm
    have b2 : ("tech_analysis" == a) = false := by simpa using fun he => h2 he.symm
    have b3 : ("chart_generation" == a) = false := by simpa using fun he => h3 he.symm
    have b4 : ("report_generation" == a) = false := by simpa using fun he => h4 he.symm
    simp [depsOf, dependencies, List.find?, b1, b2, b3, b4]
  simp [check_dependencies, hd]

/-- C10, witness: an undeclared task at a concrete state. -/
theorem C10_undeclared_ready_witness :
    check_dependencies [("market_trends", Value.none)] "market_research" = (true, []) :=
  C10_undeclared_ready [("market_trends", Value.none)] "market_research" (by decide)

end EVMarket
